import Mathlib

/-!
Verification of the pkroam save-file codec and transfer controller.

Shallow embedding of the Rust sources:
  * `src/src/pokemon.rs` — the 80/100-byte creature codec (`Pokemon::from_pk3`,
    `Pokemon::to_pk3`, `encrypt_decrypt_pk3`, `get_offset_for_substructure`);
  * `src/pkroam_lib/src/lib.rs` — `decode_text`;
  * `src/pkroam/src/save.rs` — the 128 KiB save-file engine (`SaveFile`);
  * `src/pkroam-backend/src/cli_handlers.rs` and
    `src/pkroam-backend/src/database/mod.rs` — the transfer controller and
    the roam store, modelled at slot/row granularity.

Bytes are natural numbers; reads normalise with `% 256` exactly where the
Rust code works on `u8` values.  Creature blobs are `List Nat`; the save
image is a function `Nat → Nat` from absolute byte offset to byte value,
with the file length carried separately where the Rust code can hit
end-of-buffer.  Fallible Rust code (`io::Result`, panicking `unwrap`,
overflow-checked arithmetic) becomes `Option`/`Except`.
-/

namespace PkRoam

/-- Little-endian 16-bit read from a byte list, entries taken mod 256 the way
`byteorder::ReadBytesExt::read_u16` assembles `u8` values. -/
def readU16L (b : List Nat) (i : Nat) : Nat :=
  b.getD i 0 % 256 + 256 * (b.getD (i + 1) 0 % 256)

/-- Little-endian 32-bit read from a byte list. -/
def readU32L (b : List Nat) (i : Nat) : Nat :=
  b.getD i 0 % 256 + 256 * (b.getD (i + 1) 0 % 256) +
    65536 * (b.getD (i + 2) 0 % 256) + 16777216 * (b.getD (i + 3) 0 % 256)

/-- The `n` bytes of a list starting at offset `o` (as `read_exact` into a
fixed-size buffer). -/
def sliceL (b : List Nat) (o n : Nat) : List Nat :=
  (List.range n).map (fun j => b.getD (o + j) 0)

/-- Trainer id as split by `from_pk3`: low 16 bits public, high 16 secret. -/
structure TrainerId where
  public_id : Nat
  secret_id : Nat
deriving DecidableEq, Repr

/-- Origin language, `impl TryFrom<u8> for Language` in `pokemon.rs`. -/
inductive Language where
  | japanese | english | french | italian | german | spanish
deriving DecidableEq, Repr

/-- `Language::try_from`: valid bytes are 1,2,3,4,5,7; all others are
`MalformedCreature`. -/
def language_try_from (v : Nat) : Option Language :=
  match v with
  | 1 => some .japanese
  | 2 => some .english
  | 3 => some .french
  | 4 => some .italian
  | 5 => some .german
  | 7 => some .spanish
  | _ => none

/-- One character of the game's text encoding, the `match` arm table of
`decode_text` in `pkroam_lib/src/lib.rs` (terminator handled by the caller). -/
def decode_char (b : Nat) : Char :=
  if 0xbb ≤ b ∧ b ≤ 0xd4 then Char.ofNat (65 + (b - 0xbb))
  else if 0xd5 ≤ b ∧ b ≤ 0xee then Char.ofNat (97 + (b - 0xd5))
  else '*'

/-- `decode_text`: consume bytes until the first byte in `0xfa..=0xff`,
mapping each earlier byte through the character table. -/
def decode_text : List Nat → List Char
  | [] => []
  | b :: rest =>
    if 0xfa ≤ b % 256 then [] else decode_char (b % 256) :: decode_text rest

/-- The four 12-byte substructures of the creature data region. -/
inductive Component where
  | growth | attacks | evsConditions | miscellaneous
deriving DecidableEq, Repr

/-- `get_offset_for_substructure`: the fixed 24-row permutation table keyed on
`personality_value % 24`, transcribed arm for arm from `pokemon.rs`.  The
source's `unreachable!()` arm (impossible: the scrutinee is `< 24`) is 0. -/
def get_offset_for_substructure (pv : Nat) (c : Component) : Nat :=
  match c, pv % 24 with
  | .growth, 0 | .growth, 1 | .growth, 2 | .growth, 3 | .growth, 4 | .growth, 5 => 0
  | .growth, 6 | .growth, 7 | .growth, 12 | .growth, 13 | .growth, 18 | .growth, 19 => 12
  | .growth, 8 | .growth, 10 | .growth, 14 | .growth, 16 | .growth, 20 | .growth, 22 => 24
  | .growth, 9 | .growth, 11 | .growth, 15 | .growth, 17 | .growth, 21 | .growth, 23 => 36
  | .attacks, 6 | .attacks, 7 | .attacks, 8 | .attacks, 9 | .attacks, 10 | .attacks, 11 => 0
  | .attacks, 0 | .attacks, 1 | .attacks, 14 | .attacks, 15 | .attacks, 20 | .attacks, 21 => 12
  | .attacks, 2 | .attacks, 4 | .attacks, 12 | .attacks, 17 | .attacks, 18 | .attacks, 23 => 24
  | .attacks, 3 | .attacks, 5 | .attacks, 13 | .attacks, 16 | .attacks, 19 | .attacks, 22 => 36
  | .evsConditions, 12 | .evsConditions, 13 | .evsConditions, 14 | .evsConditions, 15
  | .evsConditions, 16 | .evsConditions, 17 => 0
  | .evsConditions, 2 | .evsConditions, 3 | .evsConditions, 8 | .evsConditions, 9
  | .evsConditions, 22 | .evsConditions, 23 => 12
  | .evsConditions, 0 | .evsConditions, 5 | .evsConditions, 6 | .evsConditions, 11
  | .evsConditions, 19 | .evsConditions, 21 => 24
  | .evsConditions, 1 | .evsConditions, 4 | .evsConditions, 7 | .evsConditions, 10
  | .evsConditions, 18 | .evsConditions, 20 => 36
  | .miscellaneous, 18 | .miscellaneous, 19 | .miscellaneous, 20 | .miscellaneous, 21
  | .miscellaneous, 22 | .miscellaneous, 23 => 0
  | .miscellaneous, 4 | .miscellaneous, 5 | .miscellaneous, 10 | .miscellaneous, 11
  | .miscellaneous, 16 | .miscellaneous, 17 => 12
  | .miscellaneous, 1 | .miscellaneous, 3 | .miscellaneous, 7 | .miscellaneous, 9
  | .miscellaneous, 13 | .miscellaneous, 15 => 24
  | .miscellaneous, 0 | .miscellaneous, 2 | .miscellaneous, 6 | .miscellaneous, 8
  | .miscellaneous, 12 | .miscellaneous, 14 => 36
  | _, _ => 0

/-- Byte `j` of the little-endian 4-byte buffer holding the u32 XOR key
(`LittleEndian::write_u32(&mut decryption_key_buf, decryption_key)`). -/
def keyByte (key j : Nat) : Nat := key / 256 ^ j % 256

/-- The XOR pass of `encrypt_decrypt_pk3`: every byte at index 32..79 is
XORed with key byte `index % 4` (the source iterates `idx` over
`(32..80).step_by(4)` and `byte` over `0..4`, touching `idx + byte`). -/
def xorRegion (key : Nat) : Nat → List Nat → List Nat
  | _, [] => []
  | i, v :: rest =>
    (if 32 ≤ i ∧ i < 80 then v ^^^ keyByte key (i % 4) else v) :: xorRegion key (i + 1) rest

/-- `encrypt_decrypt_pk3`: derive the key `P XOR OT` from the first 8 bytes
and XOR it over the 48-byte data region. -/
def encrypt_decrypt_pk3 (b : List Nat) : List Nat :=
  xorRegion (readU32L b 0 ^^^ readU32L b 4) 0 b

/-- The decoded creature, field for field the `Pokemon` struct of
`pokemon.rs` (the `_`-discarded reads of `from_pk3` are not stored there and
are not stored here). -/
structure Pokemon where
  source_data : List Nat
  personality_value : Nat
  original_trainer_id : TrainerId
  nickname : List Char
  origin_language : Language
  original_trainer_name : List Char
  species : Nat
  experience : Nat
  moves : List Nat
  evs : List Nat
  ivs : List Nat
  is_egg : Bool
  ability : Nat
deriving DecidableEq, Repr

/-- `Pokemon::from_pk3`.  The input must reach index 79 (shorter input makes
the Rust XOR loop panic / the cursor reads fail, both modelled as `none`);
the only other failure is an invalid origin-language byte. -/
def from_pk3 (pk3 : List Nat) : Option Pokemon :=
  if pk3.length < 80 then none
  else
    let sd := encrypt_decrypt_pk3 pk3
    let pv := readU32L sd 0
    let ot := readU32L sd 4
    (language_try_from (sd.getD 18 0 % 256)).map fun lang =>
      let gOff := get_offset_for_substructure pv .growth + 32
      let aOff := get_offset_for_substructure pv .attacks + 32
      let eOff := get_offset_for_substructure pv .evsConditions + 32
      let mOff := get_offset_for_substructure pv .miscellaneous + 32
      let ivBlob := readU32L sd (mOff + 4)
      { source_data := sd
        personality_value := pv
        original_trainer_id := ⟨ot % 65536, ot / 65536⟩
        nickname := decode_text (sliceL sd 8 10)
        origin_language := lang
        original_trainer_name := decode_text (sliceL sd 20 7)
        species := readU16L sd gOff
        experience := readU32L sd (gOff + 4)
        moves := [readU16L sd aOff, readU16L sd (aOff + 2),
                  readU16L sd (aOff + 4), readU16L sd (aOff + 6)]
        evs := sliceL sd eOff 6
        ivs := (List.range 6).map (fun idx => ivBlob / 2 ^ (5 * idx) % 32)
        is_egg := ivBlob / 2 ^ 30 % 2 ≠ 0
        ability := ivBlob / 2 ^ 31 % 2 }

/-- `Pokemon::to_pk3`: XOR the stored (decrypted) bytes once more. -/
def to_pk3 (p : Pokemon) : List Nat :=
  encrypt_decrypt_pk3 p.source_data

theorem xorRegion_length (key : Nat) : ∀ (i : Nat) (l : List Nat),
    (xorRegion key i l).length = l.length := by
  intro i l
  induction l generalizing i with
  | nil => rfl
  | cons v rest ih => simp [xorRegion, ih]

theorem xorRegion_getD_lt (key : Nat) : ∀ (i j : Nat) (l : List Nat),
    i + j < 32 → (xorRegion key i l).getD j 0 = l.getD j 0 := by
  intro i j l
  induction l generalizing i j with
  | nil => intro _; rfl
  | cons v rest ih =>
    intro h
    match j with
    | 0 =>
      have : ¬(32 ≤ i ∧ i < 80) := by omega
      simp [xorRegion, this]
    | Nat.succ j' =>
      have := ih (i + 1) j' (by omega)
      simpa [xorRegion] using this

theorem xorRegion_invol (key : Nat) : ∀ (i : Nat) (l : List Nat),
    xorRegion key i (xorRegion key i l) = l := by
  intro i l
  induction l generalizing i with
  | nil => rfl
  | cons v rest ih =>
    by_cases h : 32 ≤ i ∧ i < 80
    · simp only [xorRegion, if_pos h, ih (i + 1)]
      have : v ^^^ keyByte key (i % 4) ^^^ keyByte key (i % 4) = v := by
        rw [Nat.xor_assoc, Nat.xor_self, Nat.xor_zero]
      rw [this]
    · simp only [xorRegion, if_neg h, ih (i + 1)]

theorem encrypt_decrypt_key_stable (b : List Nat) :
    readU32L (encrypt_decrypt_pk3 b) 0 ^^^ readU32L (encrypt_decrypt_pk3 b) 4 =
      readU32L b 0 ^^^ readU32L b 4 := by
  unfold encrypt_decrypt_pk3 readU32L
  rw [xorRegion_getD_lt _ 0 0 _ (by omega), xorRegion_getD_lt _ 0 1 _ (by omega),
    xorRegion_getD_lt _ 0 2 _ (by omega), xorRegion_getD_lt _ 0 3 _ (by omega),
    xorRegion_getD_lt _ 0 4 _ (by omega), xorRegion_getD_lt _ 0 5 _ (by omega),
    xorRegion_getD_lt _ 0 6 _ (by omega), xorRegion_getD_lt _ 0 7 _ (by omega)]

/-- Decrypt-then-encrypt is the identity on any byte list: the key is read
from the (unencrypted) first 8 bytes, and XOR is an involution. -/
theorem encrypt_decrypt_invol (b : List Nat) :
    encrypt_decrypt_pk3 (encrypt_decrypt_pk3 b) = b := by
  show xorRegion _ 0 (encrypt_decrypt_pk3 b) = b
  rw [encrypt_decrypt_key_stable]
  exact xorRegion_invol _ 0 b

theorem from_pk3_source_data (pk3 : List Nat) (p : Pokemon)
    (h : from_pk3 pk3 = some p) : p.source_data = encrypt_decrypt_pk3 pk3 := by
  unfold from_pk3 at h
  by_cases hl : pk3.length < 80
  · rw [if_pos hl] at h
    cases h
  · rw [if_neg hl] at h
    obtain ⟨lang, -, rfl⟩ := Option.map_eq_some'.mp h
    rfl

/-- C2.  Round-trip (creature): for every 80-byte blob on which
`Pokemon::from_pk3` succeeds, `Pokemon::to_pk3` reproduces the blob exactly,
byte for byte. -/
theorem c2_creature_roundtrip (b : List Nat) (p : Pokemon)
    (hlen : b.length = 80) (h : from_pk3 b = some p) : to_pk3 p = b := by
  unfold to_pk3
  rw [from_pk3_source_data b p h]
  exact encrypt_decrypt_invol b

/-- Concrete 80-byte blob: all zero except the origin-language byte (2 =
English), so `from_pk3` succeeds on it. -/
def blobE : List Nat :=
  List.replicate 18 0 ++ [2] ++ List.replicate 61 0

/-- Witness for C2 at `blobE`. -/
theorem c2_creature_roundtrip_witness :
    blobE.length = 80 ∧ ∃ p, from_pk3 blobE = some p ∧ to_pk3 p = blobE := by
  refine ⟨by decide, ?_⟩
  have hs : (from_pk3 blobE).isSome = true := by decide
  have hsome : from_pk3 blobE = some ((from_pk3 blobE).get hs) :=
    (Option.some_get hs).symm
  exact ⟨(from_pk3 blobE).get hs, hsome,
    c2_creature_roundtrip blobE _ (by decide) hsome⟩

/-! ### Save image model (`src/pkroam/src/save.rs`)

The 128 KiB buffer `full_contents` is a function from absolute byte offset
to byte value; the file length is carried separately where the Rust code
can hit end-of-buffer.  Writes are pointwise updates. -/

/-- A save image: byte value at each absolute offset. -/
def Image : Type := Nat → Nat

/-- Byte read (`full_contents[i]` as `u8`). -/
def byteAt (S : Image) (i : Nat) : Nat := S i % 256

/-- Pointwise byte write. -/
def setByte (S : Image) (i v : Nat) : Image :=
  fun j => if j = i then v % 256 else S j

/-- Little-endian u16 read at absolute offset `i`. -/
def readU16 (S : Image) (i : Nat) : Nat :=
  byteAt S i + 256 * byteAt S (i + 1)

/-- Little-endian u32 read at absolute offset `i`. -/
def readU32 (S : Image) (i : Nat) : Nat :=
  byteAt S i + 256 * byteAt S (i + 1) + 65536 * byteAt S (i + 2) +
    16777216 * byteAt S (i + 3)

/-- Little-endian u16 write (`write_u16::<LittleEndian>`): low byte at `i`,
high byte at `i + 1`. -/
def writeU16 (S : Image) (i v : Nat) : Image :=
  setByte (setByte S i v) (i + 1) (v / 256)

/-- Copy a byte list into the image starting at offset `o`
(`copy_from_slice`). -/
def writeBytes : Image → Nat → List Nat → Image
  | S, _, [] => S
  | S, o, v :: rest => writeBytes (setByte S o v) (o + 1) rest

/-- The `n` bytes starting at absolute offset `o`, as a list. -/
def extractBytes (S : Image) (o n : Nat) : List Nat :=
  (List.range n).map (fun j => byteAt S (o + j))

/-- `iter().any(|byte| *byte != 0x00)` over `n` bytes starting at `o`. -/
def anyNonzero (S : Image) (o n : Nat) : Bool :=
  (List.range n).any (fun j => byteAt S (o + j) != 0)

/-- `determine_latest_game_save_offset`: SAVE_B if save-index A is
0xFFFFFFFF; else SAVE_A if save-index B is 0xFFFFFFFF or A > B; else
SAVE_B.  (SAVE_A = 0x0000, SAVE_B = 0xE000; the save-index field sits at
+0x0FFC of each slot.) -/
def determine_latest_game_save_offset (S : Image) : Nat :=
  let save_index_a := readU32 S 0x0FFC
  let save_index_b := readU32 S 0xEFFC
  if save_index_a = 0xffffffff then 0xE000
  else if save_index_b = 0xffffffff ∨ save_index_a > save_index_b then 0x0000
  else 0xE000

/-- `determine_section_rotation`: read the u16 section id at slot offset
+0x0FF4, truncate to u8 (`as u8`), and compute `(14 - id) % 14`.  The u8
subtraction `NUMBER_OF_SECTIONS - section_id` overflows (panics) when the
truncated id exceeds 14, modelled as `none`. -/
def determine_section_rotation (S : Image) (save_offset : Nat) : Option Nat :=
  let section_id := readU16 S (save_offset + 0x0FF4) % 256
  if section_id ≤ 14 then some ((14 - section_id) % 14) else none

/-- Game code as classified by `determine_game_code`. -/
inductive GameCode where
  | rubySapphire | fireRedLeafGreen | emerald
deriving DecidableEq, Repr

/-- `determine_game_code`: 0 is Ruby/Sapphire, 1 is FireRed/LeafGreen,
anything else is Emerald. -/
def determine_game_code (v : Nat) : GameCode :=
  if v = 0 then .rubySapphire else if v = 1 then .fireRedLeafGreen else .emerald

/-- The static per-file values `SaveFile::new` computes and stores. -/
structure SaveMeta where
  latest : Nat
  rot : Nat
  game_code : GameCode
deriving DecidableEq, Repr

/-- `get_offset_for_section`: physical offset of a logical section id under
the stored rotation. -/
def get_offset_for_section (m : SaveMeta) (section_id : Nat) : Nat :=
  m.latest + 4096 * ((section_id + m.rot) % 14)

/-- `SaveFile::new` (the parts that can fail): length check, slot
selection, rotation, and `parse_trainer_info` — whose only fallible read is
the player-gender byte at +8 of logical section 0 (`determine_player_gender`
accepts 0 and 1).  The game code is the u32 at +0xAC of section 0.  No
section-id permutation check is performed. -/
def saveFileNew (S : Image) (len : Nat) : Option SaveMeta :=
  if len < 131072 then none
  else
    match determine_section_rotation S (determine_latest_game_save_offset S) with
    | none => none
    | some rot =>
      if byteAt S (determine_latest_game_save_offset S + 4096 * ((0 + rot) % 14) + 8) = 0 ∨
          byteAt S (determine_latest_game_save_offset S + 4096 * ((0 + rot) % 14) + 8) = 1 then
        some ⟨determine_latest_game_save_offset S, rot,
          determine_game_code
            (readU32 S (determine_latest_game_save_offset S + 4096 * ((0 + rot) % 14) + 0xAC))⟩
      else none

/-- `compute_section_checksum` inner loop: running u32 wrapping sum of the
first `n` little-endian u32 words at offset `o`. -/
def sectionChecksumAux (S : Image) (o : Nat) : Nat → Nat
  | 0 => 0
  | n + 1 => (sectionChecksumAux S o n + readU32 S (o + 4 * n)) % 4294967296

/-- `compute_section_checksum` over the 3968 data bytes at offset `o`: fold
the u32 sum into `upper16 + lower16` (u16 wrapping add). -/
def compute_section_checksum (S : Image) (o : Nat) : Nat :=
  (sectionChecksumAux S o 992 / 65536 + sectionChecksumAux S o 992 % 65536) % 65536

/-- `recompute_checksums` after processing logical section ids `0..n`:
each step recomputes the section's checksum from the current buffer and
stores it at +0x0FF6 of the section's physical offset. -/
def recomputeAux (m : SaveMeta) : Nat → Image → Image
  | 0, S => S
  | n + 1, S =>
    writeU16 (recomputeAux m n S) (get_offset_for_section m n + 0x0FF6)
      (compute_section_checksum (recomputeAux m n S) (get_offset_for_section m n))

/-- `recompute_checksums`: all 14 logical sections, ids ascending. -/
def recompute_checksums (m : SaveMeta) (S : Image) : Image :=
  recomputeAux m 14 S

/-- `write_to_file` / `write_in_place`: recompute all checksums, then the
whole buffer is written out; the result is the byte content written. -/
def write_to_file (m : SaveMeta) (S : Image) : Image :=
  recompute_checksums m S

/-- `compute_section_id_and_offset_for_box_slot`: range-check the pair
(the source accepts `1..=16` boxes and `1..=30` entries), then map it to a
logical section id `5 + absolute_offset / 3968` and an intra-section
offset `absolute_offset % 3968`, where
`absolute_offset = ((box-1)*30 + (entry-1)) * 80 + 4`. -/
def compute_section_id_and_offset_for_box_slot (box_number box_entry : Nat) :
    Option (Nat × Nat) :=
  if ¬(1 ≤ box_number ∧ box_number ≤ 16) ∨ ¬(1 ≤ box_entry ∧ box_entry ≤ 30) then
    none
  else
    let absolute_entry := (box_number - 1) * 30 + (box_entry - 1)
    let absolute_offset := absolute_entry * 80 + 4
    some (5 + absolute_offset / 3968, absolute_offset % 3968)

/-- Errors surfaced (or panics raised) by the box-slot operations.
`outOfRange` is the `SlotOutOfRange` condition: `compute_section_id_...`
returned `None` and the caller's `unwrap` panics.  `malformed` is
`MalformedCreature` from `Pokemon::from_pk3`.  `lenMismatch` is
`put_pokemon_in_box`'s 80-byte input check.  `dexInvalid` is a failing
`Species::national_dex_number` during the pokedex update. -/
inductive SaveErr where
  | outOfRange | malformed | lenMismatch | dexInvalid
deriving DecidableEq, Repr

/-- `GameCode::pokedex_seen_b` offset (in logical section 1). -/
def pokedex_seen_b : GameCode → Nat
  | .rubySapphire => 0x0938
  | .emerald => 0x0988
  | .fireRedLeafGreen => 0x05F8

/-- `GameCode::pokedex_seen_c` offset (in logical section 4). -/
def pokedex_seen_c : GameCode → Nat
  | .rubySapphire => 0x0C0C
  | .emerald => 0x0CA4
  | .fireRedLeafGreen => 0x0B98

/-- Modelled from the spec: `Species::national_dex_number` (the `pk3`
module of the `pkroam` crate, including `species.rs`, is not present under
`src/`).  Per the spec a species is a number `s` in 1..386 and its dex bit
is `s - 1`; out-of-range species fail. -/
def national_dex_number (species : Nat) : Option Nat :=
  if 1 ≤ species ∧ species ≤ 386 then some species else none

/-- `mark_pokemon_owned_in_dex`: set bit `(dex-1) % 8` of byte
`(dex-1) / 8` at the owned bitmap (+0x28, section 0), seen A (+0x5C,
section 0), seen B (section 1) and seen C (section 4). -/
def mark_pokemon_owned_in_dex (m : SaveMeta) (S : Image) (species : Nat) :
    Option Image :=
  match national_dex_number species with
  | none => none
  | some dex =>
    let bit_position := dex - 1
    let byte_number := bit_position / 8
    let bit := bit_position % 8
    let sec0 := get_offset_for_section m 0
    let sec1 := get_offset_for_section m 1
    let sec4 := get_offset_for_section m 4
    let offs := [sec0 + 0x28, sec0 + 0x5C, sec1 + pokedex_seen_b m.game_code,
                 sec4 + pokedex_seen_c m.game_code]
    some (offs.foldl
      (fun img o => setByte img (o + byte_number)
        (byteAt img (o + byte_number) ||| (1 <<< bit))) S)

/-- `get_pokemon_from_box`: compute the slot's section id and offset
(panicking on out-of-range), assemble the 80 bytes — from one section, or
from the tail of one section plus the head of the next logical section when
the slot straddles — and decode them unless they are all zero. -/
def get_pokemon_from_box (m : SaveMeta) (S : Image) (box_number slot_number : Nat) :
    Except SaveErr (Option Pokemon) :=
  match compute_section_id_and_offset_for_box_slot box_number slot_number with
  | none => .error .outOfRange
  | some (section_id, relative_offset) =>
    let section_offset := get_offset_for_section m section_id
    if relative_offset + 80 > 3968 then
      let bytes_from_first_section := 3968 - relative_offset
      let next_section_id := (section_id + 1) % 14
      let next_offset := get_offset_for_section m next_section_id
      let pk3_data :=
        extractBytes S (section_offset + relative_offset) bytes_from_first_section ++
          extractBytes S next_offset (80 - bytes_from_first_section)
      if pk3_data.any (fun b => b != 0) then
        match from_pk3 pk3_data with
        | some p => .ok (some p)
        | none => .error .malformed
      else .ok none
    else
      let pk3_data := extractBytes S (section_offset + relative_offset) 80
      if pk3_data.any (fun b => b != 0) then
        match from_pk3 pk3_data with
        | some p => .ok (some p)
        | none => .error .malformed
      else .ok none

/-- The slot-location, occupancy-check and write tail of
`put_pokemon_in_box`, after the length check and the pokedex update.
In the straddling branch the source's occupancy check reads the second
piece from `section_offset ..` — the *first* section's start — rather
than from the next section where the second piece actually lives; the
write itself does use the next section. -/
def put_pk3_after_dex (m : SaveMeta) (S1 : Image) (box_number slot_number : Nat)
    (pk3_data : List Nat) (force : Bool) : Except SaveErr (Image × Bool) :=
  match compute_section_id_and_offset_for_box_slot box_number slot_number with
  | none => .error .outOfRange
  | some (section_id, relative_offset) =>
    if relative_offset + 80 > 3968 then
      if (anyNonzero S1 (get_offset_for_section m section_id + relative_offset)
            (3968 - relative_offset) ||
          anyNonzero S1 (get_offset_for_section m section_id)
            (80 - (3968 - relative_offset))) && !force then
        .ok (S1, false)
      else
        .ok (writeBytes
          (writeBytes S1 (get_offset_for_section m section_id + relative_offset)
            (pk3_data.take (3968 - relative_offset)))
          (get_offset_for_section m (section_id + 1))
          (pk3_data.drop (3968 - relative_offset)), true)
    else
      if anyNonzero S1 (get_offset_for_section m section_id + relative_offset) 80
          && !force then
        .ok (S1, false)
      else
        .ok (writeBytes S1 (get_offset_for_section m section_id + relative_offset)
          pk3_data, true)

/-- `put_pokemon_in_box`.  Order is the source's: 80-byte length check;
if the blob decodes, mark its species in the pokedex (mutating the buffer
*before* any occupancy check); then locate the slot (panicking on
out-of-range), check occupancy and write.  Returns the updated image and
the `Ok(bool)` result. -/
def put_pokemon_in_box (m : SaveMeta) (S : Image) (box_number slot_number : Nat)
    (pk3_data : List Nat) (force : Bool) : Except SaveErr (Image × Bool) :=
  if pk3_data.length ≠ 80 then .error .lenMismatch
  else
    match from_pk3 pk3_data with
    | some p =>
      match mark_pokemon_owned_in_dex m S p.species with
      | none => .error .dexInvalid
      | some S1 => put_pk3_after_dex m S1 box_number slot_number pk3_data force
    | none => put_pk3_after_dex m S box_number slot_number pk3_data force

/-- The zeroed 80-byte blob `clear_box_position` writes. -/
def cleared_pk3 : List Nat := List.replicate 80 0

/-- `take_pokemon_from_box`: read the slot, clear it
(`put_pokemon_in_box` of 80 zero bytes with `force = true`), recompute all
checksums in memory, and return the decoded creature. -/
def take_pokemon_from_box (m : SaveMeta) (S : Image) (box_number slot_number : Nat) :
    Except SaveErr (Option Pokemon × Image) :=
  match get_pokemon_from_box m S box_number slot_number with
  | .error e => .error e
  | .ok pkmn =>
    match put_pokemon_in_box m S box_number slot_number cleared_pk3 true with
    | .error e => .error e
    | .ok (S1, _) => .ok (pkmn, recompute_checksums m S1)

/-- `GameCode::team_size_offset`. -/
def team_size_offset : GameCode → Nat
  | .rubySapphire | .emerald => 0x0234
  | .fireRedLeafGreen => 0x0034

/-- `get_party` record loop: read `n` consecutive 100-byte party records
starting at `pos`, decoding each; any decode or end-of-buffer failure
aborts the whole read. -/
def getPartyAux (S : Image) (len : Nat) : Nat → Nat → Option (List Pokemon)
  | _, 0 => some []
  | pos, n + 1 =>
    if pos + 100 ≤ len then
      match from_pk3 (extractBytes S pos 100) with
      | none => none
      | some p => (getPartyAux S len (pos + 100) n).map (fun l => p :: l)
    else none

/-- `get_party`: read the u32 team size at the game-code-dependent offset
in logical section 1, then read exactly that many 100-byte records.  No
clamping is applied to the stored team size. -/
def get_party (m : SaveMeta) (S : Image) (len : Nat) : Option (List Pokemon) :=
  let section_offset := get_offset_for_section m 1
  let team_size_pos := section_offset + team_size_offset m.game_code
  if team_size_pos + 4 ≤ len then
    getPartyAux S len (team_size_pos + 4) (readU32 S team_size_pos)
  else none

/-! ### C3 — write frame effect -/

theorem setByte_ne (S : Image) (i v j : Nat) (h : j ≠ i) : setByte S i v j = S j := by
  unfold setByte
  rw [if_neg h]

theorem writeU16_ne (S : Image) (i v j : Nat) (h1 : j ≠ i) (h2 : j ≠ i + 1) :
    writeU16 S i v j = S j := by
  unfold writeU16
  rw [setByte_ne _ _ _ _ h2, setByte_ne _ _ _ _ h1]

theorem readU16_writeU16_self (S : Image) (i v : Nat) (hv : v < 65536) :
    readU16 (writeU16 S i v) i = v := by
  unfold readU16 writeU16 byteAt setByte
  rw [if_neg (by omega : ¬ i = i + 1), if_pos rfl, if_pos rfl]
  omega

theorem compute_section_checksum_lt (S : Image) (o : Nat) :
    compute_section_checksum S o < 65536 := by
  unfold compute_section_checksum
  omega

theorem recomputeAux_frame (m : SaveMeta) (S : Image) :
    ∀ n j, (∀ k, k < n → j ≠ get_offset_for_section m k + 0x0FF6 ∧
        j ≠ get_offset_for_section m k + 0x0FF7) →
      recomputeAux m n S j = S j := by
  intro n
  induction n with
  | zero => intro j _; rfl
  | succ p ih =>
    intro j hj
    show writeU16 (recomputeAux m p S) (get_offset_for_section m p + 0x0FF6)
      (compute_section_checksum (recomputeAux m p S) (get_offset_for_section m p)) j
      = S j
    have hp6 := (hj p (by omega)).1
    have hp7 := (hj p (by omega)).2
    rw [writeU16_ne _ _ _ _ hp6 (by omega)]
    exact ih j (fun k hk => hj k (by omega))

theorem readU32_congr (S S' : Image) (pos : Nat)
    (h : ∀ t, t < 4 → S' (pos + t) = S (pos + t)) :
    readU32 S' pos = readU32 S pos := by
  unfold readU32 byteAt
  have h0 : S' pos = S pos := h 0 (by omega)
  have h1 : S' (pos + 1) = S (pos + 1) := h 1 (by omega)
  have h2 : S' (pos + 2) = S (pos + 2) := h 2 (by omega)
  have h3 : S' (pos + 3) = S (pos + 3) := h 3 (by omega)
  rw [h0, h1, h2, h3]

theorem sectionChecksumAux_congr (S S' : Image) (o : Nat)
    (h : ∀ t, t < 3968 → S' (o + t) = S (o + t)) :
    ∀ n, n ≤ 992 → sectionChecksumAux S' o n = sectionChecksumAux S o n := by
  intro n
  induction n with
  | zero => intro _; rfl
  | succ p ih =>
    intro hp
    unfold sectionChecksumAux
    rw [ih (by omega), readU32_congr S S' (o + 4 * p) ?_]
    intro t ht
    have := h (4 * p + t) (by omega)
    rw [← Nat.add_assoc] at this
    exact this

theorem compute_section_checksum_congr (S S' : Image) (o : Nat)
    (h : ∀ t, t < 3968 → S' (o + t) = S (o + t)) :
    compute_section_checksum S' o = compute_section_checksum S o := by
  unfold compute_section_checksum
  rw [sectionChecksumAux_congr S S' o h 992 (by omega)]

theorem recomputeAux_data_frame (m : SaveMeta) (S : Image) (n k : Nat)
    (hn : n ≤ 14) (hk : k < 14) (hnk : ∀ i, i < n → i ≠ k) :
    ∀ t, t < 3968 →
      recomputeAux m n S (get_offset_for_section m k + t) =
        S (get_offset_for_section m k + t) := by
  intro t ht
  apply recomputeAux_frame
  intro i hi
  have hik : i ≠ k := hnk i hi
  have hi14 : i < 14 := by omega
  unfold get_offset_for_section
  constructor <;> omega

theorem recomputeAux_trailer (m : SaveMeta) (S : Image) :
    ∀ n, n ≤ 14 → ∀ k, k < n →
      readU16 (recomputeAux m n S) (get_offset_for_section m k + 0x0FF6) =
        compute_section_checksum S (get_offset_for_section m k) := by
  intro n
  induction n with
  | zero => intro _ k hk; exact absurd hk (by omega)
  | succ p ih =>
    intro hp k hk
    show readU16 (writeU16 (recomputeAux m p S) (get_offset_for_section m p + 0x0FF6)
        (compute_section_checksum (recomputeAux m p S) (get_offset_for_section m p)))
      (get_offset_for_section m k + 0x0FF6) =
      compute_section_checksum S (get_offset_for_section m k)
    by_cases hkp : k = p
    · subst hkp
      rw [readU16_writeU16_self _ _ _ (compute_section_checksum_lt _ _)]
      exact compute_section_checksum_congr S (recomputeAux m k S) _
        (recomputeAux_data_frame m S k k (by omega) (by omega)
          (fun i hi => by omega))
    · have hk14 : k < 14 := by omega
      have hp14 : p < 14 := by omega
      have hne6 : get_offset_for_section m k + 0x0FF6 ≠
          get_offset_for_section m p + 0x0FF6 := by
        unfold get_offset_for_section
        omega
      have hne6' : get_offset_for_section m k + 0x0FF6 ≠
          get_offset_for_section m p + 0x0FF6 + 1 := by
        unfold get_offset_for_section
        omega
      have h7a : get_offset_for_section m k + 0x0FF6 + 1 ≠
          get_offset_for_section m p + 0x0FF6 := by
        unfold get_offset_for_section
        omega
      have h7b : get_offset_for_section m k + 0x0FF6 + 1 ≠
          get_offset_for_section m p + 0x0FF6 + 1 := by
        unfold get_offset_for_section
        omega
      unfold readU16 byteAt
      rw [writeU16_ne _ _ _ _ hne6 hne6', writeU16_ne _ _ _ _ h7a h7b]
      exact ih (by omega) k (by omega)

/-- C3.  Round-trip (save): for a save image accepted by `SaveFile::new`,
the bytes written by `write_to_file` agree with the input at every
position other than the 14 section-checksum trailer positions (+0x0FF6,
two bytes each) of the current slot — in particular the whole non-current
slot and all unused header bytes are preserved — and each of those 14
trailers holds the checksum recomputed from the input's section data. -/
theorem c3_save_write_frame (S : Image) (m : SaveMeta)
    (hopen : saveFileNew S 131072 = some m) :
    (∀ i, (∀ k, k < 14 → i ≠ get_offset_for_section m k + 0x0FF6 ∧
        i ≠ get_offset_for_section m k + 0x0FF7) →
      write_to_file m S i = S i) ∧
    (∀ k, k < 14 →
      readU16 (write_to_file m S) (get_offset_for_section m k + 0x0FF6) =
        compute_section_checksum S (get_offset_for_section m k)) :=
  ⟨fun i hi => recomputeAux_frame m S 14 i hi,
   fun k hk => recomputeAux_trailer m S 14 (by omega) k hk⟩

/-! ### Concrete images used as test inputs -/

/-- The all-zero 128 KiB image.  Both save-indices are 0 (so SAVE_B is
selected), the rotation id at +0x0FF4 is 0, the gender byte is 0, and the
game-code word is 0 (Ruby/Sapphire). -/
def zeroImg : Image := fun _ => 0

/-- The metadata `SaveFile::new` computes for `zeroImg` (and for the other
concrete images below, which leave the header fields zero). -/
def metaZ : SaveMeta := ⟨0xE000, 0, .rubySapphire⟩

/-- Witness for C3 at the all-zero image: open succeeds, byte 0 (a
non-trailer position) is preserved, and the first trailer holds the
recomputed checksum. -/
theorem c3_save_write_frame_witness :
    saveFileNew zeroImg 131072 = some metaZ ∧
      write_to_file metaZ zeroImg 0 = zeroImg 0 ∧
      readU16 (write_to_file metaZ zeroImg) (get_offset_for_section metaZ 0 + 0x0FF6) =
        compute_section_checksum zeroImg (get_offset_for_section metaZ 0) := by
  have hopen : saveFileNew zeroImg 131072 = some metaZ := by decide
  have h := c3_save_write_frame zeroImg metaZ hopen
  refine ⟨hopen, ?_, h.2 0 (by omega)⟩
  apply h.1
  intro k hk
  unfold get_offset_for_section
  constructor <;> omega

/-! ### C10 — straddle coverage -/

/-- C10.  For every box 1..14 and slot 1..30 the computed
`(logical_id, intra)` has `5 ≤ logical_id ≤ 13`, and either the slot is
contiguous (`intra + 80 ≤ 3968`) or it straddles into logical section
`logical_id + 1 ≤ 13` with the two pieces (of sizes `3968 - intra` and
`80 - (3968 - intra)`) covering all 80 bytes. -/
theorem c10_straddle_coverage (box slot : Nat)
    (h1 : 1 ≤ box) (h2 : box ≤ 14) (h3 : 1 ≤ slot) (h4 : slot ≤ 30) :
    ∃ sid off,
      compute_section_id_and_offset_for_box_slot box slot = some (sid, off) ∧
        5 ≤ sid ∧ sid ≤ 13 ∧
        (off + 80 ≤ 3968 ∨ (sid + 1 ≤ 13 ∧ (3968 - off) + (80 - (3968 - off)) = 80)) := by
  have hr : ¬(¬(1 ≤ box ∧ box ≤ 16) ∨ ¬(1 ≤ slot ∧ slot ≤ 30)) := by omega
  refine ⟨5 + (((box - 1) * 30 + (slot - 1)) * 80 + 4) / 3968,
    (((box - 1) * 30 + (slot - 1)) * 80 + 4) % 3968, ?_, ?_, ?_, ?_⟩
  · unfold compute_section_id_and_offset_for_box_slot
    rw [if_neg hr]
  · omega
  · omega
  · by_cases hs : (((box - 1) * 30 + (slot - 1)) * 80 + 4) % 3968 + 80 ≤ 3968
    · exact Or.inl hs
    · exact Or.inr (by omega)

/-- Witness for C10 at box 1, slot 1. -/
theorem c10_straddle_coverage_witness :
    ∃ sid off,
      compute_section_id_and_offset_for_box_slot 1 1 = some (sid, off) ∧
        5 ≤ sid ∧ sid ≤ 13 ∧
        (off + 80 ≤ 3968 ∨ (sid + 1 ≤ 13 ∧ (3968 - off) + (80 - (3968 - off)) = 80)) :=
  c10_straddle_coverage 1 1 (by decide) (by decide) (by decide) (by decide)

/-! ### C4 — box/slot range checking -/

theorem compute_box_slot_none_iff (box slot : Nat) :
    compute_section_id_and_offset_for_box_slot box slot = none ↔
      ¬(1 ≤ box ∧ box ≤ 16 ∧ 1 ≤ slot ∧ slot ≤ 30) := by
  by_cases h : ¬(1 ≤ box ∧ box ≤ 16) ∨ ¬(1 ≤ slot ∧ slot ≤ 30)
  · refine iff_of_true ?_ (by tauto)
    unfold compute_section_id_and_offset_for_box_slot
    rw [if_pos h]
  · refine iff_of_false ?_ (by tauto)
    unfold compute_section_id_and_offset_for_box_slot
    rw [if_neg h]
    exact fun hc => Option.noConfusion hc

theorem get_box_outOfRange_iff (m : SaveMeta) (S : Image) (box slot : Nat) :
    get_pokemon_from_box m S box slot = .error .outOfRange ↔
      compute_section_id_and_offset_for_box_slot box slot = none := by
  unfold get_pokemon_from_box
  cases hc : compute_section_id_and_offset_for_box_slot box slot with
  | none => simp
  | some v =>
    obtain ⟨sid, off⟩ := v
    simp only
    constructor
    · intro h
      by_cases hs : off + 80 > 3968
      · simp only [if_pos hs] at h
        split at h
        · split at h <;> cases h
        · cases h
      · simp only [if_neg hs] at h
        split at h
        · split at h <;> cases h
        · cases h
    · intro h; cases h

theorem ite_ok_ne_error {c : Prop} [Decidable c] (a b : Image × Bool) (e : SaveErr) :
    (if c then (Except.ok a : Except SaveErr (Image × Bool)) else .ok b) ≠ .error e := by
  by_cases h : c
  · rw [if_pos h]; exact fun x => Except.noConfusion x
  · rw [if_neg h]; exact fun x => Except.noConfusion x

theorem put_after_dex_outOfRange_iff (m : SaveMeta) (S1 : Image) (box slot : Nat)
    (blob : List Nat) (force : Bool) :
    put_pk3_after_dex m S1 box slot blob force = .error .outOfRange ↔
      compute_section_id_and_offset_for_box_slot box slot = none := by
  unfold put_pk3_after_dex
  cases hc : compute_section_id_and_offset_for_box_slot box slot with
  | none => simp
  | some v =>
    obtain ⟨sid, off⟩ := v
    refine iff_of_false ?_ (fun h => Option.noConfusion h)
    simp only
    by_cases hs : off + 80 > 3968
    · rw [if_pos hs]
      exact ite_ok_ne_error _ _ _
    · rw [if_neg hs]
      exact ite_ok_ne_error _ _ _

theorem put_clear_eq_after_dex (m : SaveMeta) (S : Image) (box slot : Nat) :
    put_pokemon_in_box m S box slot cleared_pk3 true =
      put_pk3_after_dex m S box slot cleared_pk3 true := by
  unfold put_pokemon_in_box
  rw [if_neg (by decide : ¬ cleared_pk3.length ≠ 80),
    (by decide : from_pk3 cleared_pk3 = none)]

theorem take_outOfRange_iff (m : SaveMeta) (S : Image) (box slot : Nat) :
    take_pokemon_from_box m S box slot = .error .outOfRange ↔
      compute_section_id_and_offset_for_box_slot box slot = none := by
  unfold take_pokemon_from_box
  cases hg : get_pokemon_from_box m S box slot with
  | error e =>
    simp only
    constructor
    · intro h
      injection h with he
      rw [he] at hg
      exact (get_box_outOfRange_iff m S box slot).mp hg
    · intro hc
      have := (get_box_outOfRange_iff m S box slot).mpr hc
      rw [hg] at this
      injection this with he
      rw [he]
  | ok pkmn =>
    have hnc : compute_section_id_and_offset_for_box_slot box slot ≠ none := by
      intro hn
      have := (get_box_outOfRange_iff m S box slot).mpr hn
      rw [hg] at this
      cases this
    simp only
    rw [put_clear_eq_after_dex]
    cases hp : put_pk3_after_dex m S box slot cleared_pk3 true with
    | error e =>
      refine iff_of_false ?_ hnc
      intro h
      injection h with he
      rw [he] at hp
      exact hnc ((put_after_dex_outOfRange_iff m S box slot cleared_pk3 true).mp hp)
    | ok pr =>
      obtain ⟨S1, b⟩ := pr
      exact iff_of_false (fun h => Except.noConfusion h) hnc

theorem put_outOfRange_iff (m : SaveMeta) (S : Image) (box slot : Nat)
    (blob : List Nat) (force : Bool) (hlen : blob.length = 80)
    (hdex : from_pk3 blob = none ∨
      ∃ p, from_pk3 blob = some p ∧ national_dex_number p.species ≠ none) :
    put_pokemon_in_box m S box slot blob force = .error .outOfRange ↔
      compute_section_id_and_offset_for_box_slot box slot = none := by
  unfold put_pokemon_in_box
  rw [if_neg (by omega : ¬ blob.length ≠ 80)]
  cases hf : from_pk3 blob with
  | none => exact put_after_dex_outOfRange_iff m S box slot blob force
  | some p =>
    simp only
    cases hdex with
    | inl h => rw [h] at hf; cases hf
    | inr h =>
      obtain ⟨p', hp', hd⟩ := h
      rw [hf] at hp'
      injection hp' with hp'
      subst hp'
      cases hn : national_dex_number p.species with
      | none => exact absurd hn hd
      | some dex =>
        have hm : mark_pokemon_owned_in_dex m S p.species ≠ none := by
          unfold mark_pokemon_owned_in_dex
          rw [hn]
          exact fun h => Option.noConfusion h
        cases hmm : mark_pokemon_owned_in_dex m S p.species with
        | none => exact absurd hmm hm
        | some S1 => exact put_after_dex_outOfRange_iff m S1 box slot blob force

/-- C4 (amended).  `get_pokemon_from_box`, `take_pokemon_from_box` and
`put_pokemon_in_box` raise the out-of-range condition exactly when the
caller-supplied (box, slot) lies outside 1..16 × 1..30 — the source
accepts boxes 15 and 16 (for `put`, under an 80-byte blob whose species,
if it decodes, has a valid dex number, so that no earlier failure
pre-empts the range check). -/
theorem c4_slot_range (m : SaveMeta) (S : Image) (box slot : Nat)
    (blob : List Nat) (hlen : blob.length = 80)
    (hdex : from_pk3 blob = none ∨
      ∃ p, from_pk3 blob = some p ∧ national_dex_number p.species ≠ none) :
    (get_pokemon_from_box m S box slot = .error .outOfRange ↔
      ¬(1 ≤ box ∧ box ≤ 16 ∧ 1 ≤ slot ∧ slot ≤ 30)) ∧
    (take_pokemon_from_box m S box slot = .error .outOfRange ↔
      ¬(1 ≤ box ∧ box ≤ 16 ∧ 1 ≤ slot ∧ slot ≤ 30)) ∧
    (put_pokemon_in_box m S box slot blob false = .error .outOfRange ↔
      ¬(1 ≤ box ∧ box ≤ 16 ∧ 1 ≤ slot ∧ slot ≤ 30)) :=
  ⟨(get_box_outOfRange_iff m S box slot).trans (compute_box_slot_none_iff box slot),
   (take_outOfRange_iff m S box slot).trans (compute_box_slot_none_iff box slot),
   (put_outOfRange_iff m S box slot blob false hlen hdex).trans
     (compute_box_slot_none_iff box slot)⟩

/-- Witness for C4: at box 1, slot 31 (out of range) with the all-zero
blob (which does not decode), `get_pokemon_from_box` raises the
out-of-range condition. -/
theorem c4_slot_range_witness :
    cleared_pk3.length = 80 ∧ from_pk3 cleared_pk3 = none ∧
    (get_pokemon_from_box metaZ zeroImg 1 31 = .error .outOfRange ↔
      ¬(1 ≤ 1 ∧ 1 ≤ 16 ∧ 1 ≤ 31 ∧ 31 ≤ 30)) :=
  ⟨by decide, by decide,
    (c4_slot_range metaZ zeroImg 1 31 cleared_pk3 (by decide)
      (Or.inl (by decide))).1⟩

/-- Counterexample for C4 as stated: box 15 is *not* rejected — the range
check accepts it (`compute_section_id_and_offset_for_box_slot` maps it into
logical section 13) and `get_pokemon_from_box` succeeds on it. -/
theorem c4_counterexample_box15_accepted :
    compute_section_id_and_offset_for_box_slot 15 1 = some (13, 1860) ∧
      get_pokemon_from_box metaZ zeroImg 15 1 = .ok none := by
  constructor
  · decide
  · rfl

/-! ### C6 — current-slot selection -/

/-- The spec's `current_slot_offset` formula, transcribed from the spec
sentence for comparison with the source's `determine_latest_game_save_offset`:
SAVE_A if save-index-B is 0xFFFFFFFF or (save-index-A is not 0xFFFFFFFF and
A > B); else SAVE_B. -/
def claimCurrentSlotOffset (S : Image) : Nat :=
  if readU32 S 0xEFFC = 0xffffffff ∨
      (readU32 S 0x0FFC ≠ 0xffffffff ∧ readU32 S 0x0FFC > readU32 S 0xEFFC) then
    0x0000
  else 0xE000

/-- Image whose two save-index fields (+0x0FFC of each slot) are both
0xFFFFFFFF. -/
def imgFF : Image := fun i =>
  if (0x0FFC ≤ i ∧ i ≤ 0x0FFF) ∨ (0xEFFC ≤ i ∧ i ≤ 0xEFFF) then 0xFF else 0

/-- Counterexample for C6 as stated: when both save-indices are 0xFFFFFFFF
the source selects SAVE_B (0xE000), while the claim's formula selects
SAVE_A (0x0000). -/
theorem c6_counterexample_both_empty :
    readU32 imgFF 0x0FFC = 0xffffffff ∧ readU32 imgFF 0xEFFC = 0xffffffff ∧
      determine_latest_game_save_offset imgFF = 0xE000 ∧
      claimCurrentSlotOffset imgFF = 0x0000 := by
  refine ⟨by decide, by decide, by decide, by decide⟩

/-- C6 (amended).  The source selects SAVE_A exactly when save-index-A is
not 0xFFFFFFFF and (save-index-B is 0xFFFFFFFF or A > B); in every other
case — including both indices 0xFFFFFFFF — it selects SAVE_B. -/
theorem c6_current_slot_selection (S : Image) :
    determine_latest_game_save_offset S =
      (if readU32 S 0x0FFC ≠ 0xffffffff ∧
          (readU32 S 0xEFFC = 0xffffffff ∨ readU32 S 0xEFFC < readU32 S 0x0FFC) then
        0x0000
      else 0xE000) := by
  unfold determine_latest_game_save_offset
  by_cases ha : readU32 S 0x0FFC = 0xffffffff
  · simp [ha]
  · by_cases hb : readU32 S 0xEFFC = 0xffffffff ∨ readU32 S 0x0FFC > readU32 S 0xEFFC
    · simp only [if_neg ha, if_pos hb]
      rw [if_pos]
      exact ⟨ha, by omega⟩
    · simp only [if_neg ha, if_neg hb]
      rw [if_neg]
      intro ⟨_, h2⟩
      exact hb (by omega)

/-! ### C7 — open does not validate the section-id rotation -/

/-- The fourteen logical section ids stored in the section trailers
(+0x0FF4) of the slot at `save_offset`. -/
def sectionIdsList (S : Image) (save_offset : Nat) : List Nat :=
  (List.range 14).map (fun k => readU16 S (save_offset + 4096 * k + 0x0FF4))

/-- The trailers hold a permutation of 0..13: every id occurs exactly
once. -/
def sectionIdsPermutation (S : Image) (save_offset : Nat) : Prop :=
  ∀ i < 14, (sectionIdsList S save_offset).count i = 1

instance (S : Image) (o : Nat) : Decidable (sectionIdsPermutation S o) :=
  Nat.decidableBallLT _ _

/-- C7 (amended).  `SaveFile::new` performs no permutation check on the
section ids: whenever the length suffices, the truncated id at physical
position 0 is at most 14 and the gender byte parses, open succeeds even
though the stored ids are not a permutation of 0..13.  (The claimed
`BadRotation` failure does not exist in the source.) -/
theorem c7_open_ignores_rotation_permutation (S : Image) (len rot : Nat)
    (hlen : 131072 ≤ len)
    (hrot : determine_section_rotation S (determine_latest_game_save_offset S) = some rot)
    (hgender :
      byteAt S (determine_latest_game_save_offset S + 4096 * ((0 + rot) % 14) + 8) = 0 ∨
      byteAt S (determine_latest_game_save_offset S + 4096 * ((0 + rot) % 14) + 8) = 1)
    (hperm : ¬ sectionIdsPermutation S (determine_latest_game_save_offset S)) :
    ∃ m, saveFileNew S len = some m := by
  refine ⟨⟨determine_latest_game_save_offset S, rot,
    determine_game_code (readU32 S
      (determine_latest_game_save_offset S + 4096 * ((0 + rot) % 14) + 0xAC))⟩, ?_⟩
  unfold saveFileNew
  rw [if_neg (by omega), hrot]
  exact if_pos hgender

/-- Witness for C7 at the all-zero image: every trailer id is 0 (not a
permutation) yet open succeeds. -/
theorem c7_open_ignores_rotation_permutation_witness :
    131072 ≤ 131072 ∧
    determine_section_rotation zeroImg (determine_latest_game_save_offset zeroImg) = some 0 ∧
    byteAt zeroImg (determine_latest_game_save_offset zeroImg + 4096 * ((0 + 0) % 14) + 8) = 0 ∧
    ¬ sectionIdsPermutation zeroImg (determine_latest_game_save_offset zeroImg) ∧
    ∃ m, saveFileNew zeroImg 131072 = some m :=
  ⟨by decide, by decide, by decide, by decide,
    c7_open_ignores_rotation_permutation zeroImg 131072 0 (by decide) (by decide)
      (Or.inl (by decide)) (by decide)⟩

/-- Counterexample for C7 as stated: `zeroImg`'s section ids are all 0 —
not a permutation of 0..13 — yet open succeeds instead of failing. -/
theorem c7_counterexample_open_accepts_bad_rotation :
    saveFileNew zeroImg 131072 = some metaZ ∧
      ¬ sectionIdsPermutation zeroImg (determine_latest_game_save_offset zeroImg) := by
  exact ⟨by decide, by decide⟩

/-! ### C9 — party size is not clamped -/

theorem getPartyAux_length (S : Image) (len : Nat) :
    ∀ (n pos : Nat) (l : List Pokemon), getPartyAux S len pos n = some l →
      l.length = n := by
  intro n
  induction n with
  | zero =>
    intro pos l h
    unfold getPartyAux at h
    cases h
    rfl
  | succ k ih =>
    intro pos l h
    unfold getPartyAux at h
    by_cases hb : pos + 100 ≤ len
    · rw [if_pos hb] at h
      cases hf : from_pk3 (extractBytes S pos 100) with
      | none => rw [hf] at h; cases h
      | some p =>
        rw [hf] at h
        obtain ⟨l', hl', rfl⟩ := Option.map_eq_some'.mp h
        simpa using ih (pos + 100) l' hl'
    · rw [if_neg hb] at h
      cases h

/-- C9 (amended).  `get_party` reads exactly the stored team-size count of
100-byte records, with no clamp at 6: whenever it succeeds the returned
list's length equals the u32 stored at the game-code-dependent offset in
logical section 1 — even when that value exceeds 6. -/
theorem c9_party_size_unclamped (m : SaveMeta) (S : Image) (len : Nat)
    (l : List Pokemon) (h : get_party m S len = some l) :
    l.length = readU32 S (get_offset_for_section m 1 + team_size_offset m.game_code) := by
  unfold get_party at h
  by_cases hb : get_offset_for_section m 1 + team_size_offset m.game_code + 4 ≤ len
  · rw [if_pos hb] at h
    exact getPartyAux_length S len _ _ l h
  · rw [if_neg hb] at h
    cases h

/-- Image with a stored team size of 7 and seven decodable zero party
records (origin-language byte 2 at +0x12 of each 100-byte record); header
fields zero, so SAVE_B is current with rotation 0 and the team-size word
for Ruby/Sapphire sits at 0xF234. -/
def imgParty7 : Image := fun i =>
  if i = 0xF234 then 7
  else if 0xF238 ≤ i ∧ i < 0xF238 + 700 ∧ (i - 0xF238) % 100 = 18 then 2
  else 0

/-- Counterexample for C9 as stated: on `imgParty7` open succeeds and
`get_party` returns seven creatures — more than the claimed bound of 6 —
so a 7th 100-byte record was read. -/
theorem c9_counterexample_party_of_seven :
    saveFileNew imgParty7 131072 = some metaZ ∧
      readU32 imgParty7 (get_offset_for_section metaZ 1 + team_size_offset metaZ.game_code) = 7 ∧
      (get_party metaZ imgParty7 131072).map List.length = some 7 := by
  refine ⟨by decide, by decide, by decide⟩

/-- Witness for C9's amended theorem at `imgParty7`. -/
theorem c9_party_size_unclamped_witness :
    ∃ l, get_party metaZ imgParty7 131072 = some l ∧
      l.length = readU32 imgParty7
        (get_offset_for_section metaZ 1 + team_size_offset metaZ.game_code) := by
  have hs : (get_party metaZ imgParty7 131072).isSome = true := by decide
  have hsome : get_party metaZ imgParty7 131072 =
      some ((get_party metaZ imgParty7 131072).get hs) := (Option.some_get hs).symm
  exact ⟨_, hsome, c9_party_size_unclamped metaZ imgParty7 131072 _ hsome⟩

/-! ### Transfer controller (`src/pkroam-backend/src/cli_handlers.rs`)

`handle_deposit` and `handle_withdraw` are embedded over a slot-granular
abstraction of the save file: the box region is the list of its 420
disjoint 80-byte slot windows (index `(box-1)*30 + (slot-1)`), which is
faithful to the byte-level engine because distinct box slots occupy
disjoint byte ranges (C10's geometry).  The roam store models the
`monsters` and `box_entries` tables of `database/mod.rs` row for row.
`io`-level failures of `write_in_place`, `insert_new_mon`'s transaction,
`put_pokemon_in_box`'s pokedex update and `withdraw_mon`'s transaction are
injected through explicit `Bool` flags, since the Rust code can hit them
at those points. -/

/-- An 80-byte box-slot window. -/
abbrev Blob := List Nat

/-- A slot is empty iff every one of its bytes is 0 (`iter().any` negated). -/
def blobEmpty (b : Blob) : Bool := b.all (fun v => v == 0)

/-- The creature identity (P, OT) read from a blob's unencrypted header. -/
def pkIdent (b : Blob) : Nat × Nat := (readU32L b 0, readU32L b 4)

/-- The box region as its list of slot windows. -/
abbrev BoxMem := List Blob

/-- Linear index of (box, pos) in the box region. -/
def slotIdx (box pos : Nat) : Nat := (box - 1) * 30 + (pos - 1)

/-- The range accepted by `compute_section_id_and_offset_for_box_slot`. -/
def slotRange (box pos : Nat) : Prop :=
  1 ≤ box ∧ box ≤ 16 ∧ 1 ≤ pos ∧ pos ≤ 30

instance (box pos : Nat) : Decidable (slotRange box pos) := by
  unfold slotRange
  infer_instance

/-- The 80 bytes of a slot window (out-of-list slots read as empty). -/
def getSlotBlob (mem : BoxMem) (box pos : Nat) : Blob :=
  mem.getD (slotIdx box pos) []

/-- `get_pokemon_from_box` at slot granularity: out-of-range panics, an
empty slot reads as `None`, a non-empty slot must decode. -/
def slotGet (mem : BoxMem) (box pos : Nat) : Except SaveErr (Option Pokemon) :=
  if slotRange box pos then
    if blobEmpty (getSlotBlob mem box pos) then .ok none
    else
      match from_pk3 (getSlotBlob mem box pos) with
      | some p => .ok (some p)
      | none => .error .malformed
  else .error .outOfRange

/-- `put_pokemon_in_box` at slot granularity: length check, range check,
occupancy check unless forced, then overwrite the slot window.  (The
pokedex side effect lives outside the box region and is invisible at this
granularity; its possible failure is injected by the callers' flags.) -/
def slotPut (mem : BoxMem) (box pos : Nat) (blob : Blob) (force : Bool) :
    Except SaveErr (BoxMem × Bool) :=
  if blob.length ≠ 80 then .error .lenMismatch
  else if slotRange box pos then
    if !blobEmpty (getSlotBlob mem box pos) && !force then .ok (mem, false)
    else .ok (mem.set (slotIdx box pos) blob, true)
  else .error .outOfRange

/-- `take_pokemon_from_box` at slot granularity: read, then clear by
writing 80 zero bytes with `force = true` (checksum recomputation is a
no-op on the slot windows). -/
def slotTake (mem : BoxMem) (box pos : Nat) :
    Except SaveErr (Option Pokemon × BoxMem) :=
  match slotGet mem box pos with
  | .error e => .error e
  | .ok pk =>
    match slotPut mem box pos cleared_pk3 true with
    | .error e => .error e
    | .ok (mem1, _) => .ok (pk, mem1)

/-- A row of the `monsters` table (the identity columns are derived from
the stored blob by `MonsterData::from_pk3` and are recoverable from it). -/
structure MonRow where
  mon_id : Nat
  data : Blob
deriving DecidableEq, Repr

/-- A row of the `box_entries` table. -/
structure BoxEntry where
  box_number : Nat
  box_position : Nat
  monster_id : Nat
deriving DecidableEq, Repr

/-- The roam store: the two tables plus the next rowid. -/
structure RoamStore where
  rows : List MonRow
  entries : List BoxEntry
  next_id : Nat
deriving DecidableEq, Repr

/-- `DbConn::insert_new_mon`: one transaction inserting a `monsters` row
and a `box_entries` row; the UNIQUE constraints on `monster_id` and on
`(box_number, box_position)` roll the whole transaction back. -/
def insert_new_mon (st : RoamStore) (blob : Blob) (loc : Nat × Nat) :
    Option (RoamStore × Nat) :=
  if st.entries.any (fun e =>
      decide (e.box_number = loc.1 ∧ e.box_position = loc.2)) ||
     st.entries.any (fun e => decide (e.monster_id = st.next_id)) then none
  else
    some (⟨st.rows ++ [⟨st.next_id, blob⟩],
           st.entries ++ [⟨loc.1, loc.2, st.next_id⟩], st.next_id + 1⟩,
          st.next_id)

/-- `DbConn::withdraw_mon`: select the monster row and its box entry, then
delete the row (the entry cascades); absent rows fail the transaction. -/
def withdraw_mon (st : RoamStore) (mon_id : Nat) :
    Option (RoamStore × MonRow × (Nat × Nat)) :=
  match st.rows.find? (fun r => decide (r.mon_id = mon_id)),
      st.entries.find? (fun e => decide (e.monster_id = mon_id)) with
  | some r, some e =>
    some (⟨st.rows.filter (fun r => !decide (r.mon_id = mon_id)),
           st.entries.filter (fun e => !decide (e.monster_id = mon_id)),
           st.next_id⟩,
          r, (e.box_number, e.box_position))
  | _, _ => none

/-- The observable system state: the on-disk save's box region and the
roam store. -/
structure SysState where
  save : BoxMem
  store : RoamStore
deriving DecidableEq, Repr

/-- Outcome of one CLI handler: final state, the observable states in
order (one after each completed `write_in_place` and each committed store
transaction), and whether the process exits 0. -/
structure RunOut where
  final : SysState
  obs : List SysState
  exit_ok : Bool
deriving DecidableEq, Repr

/-- `handle_deposit`.  Control flow of the source: take from the save
(empty source logs a warning and returns `Ok`); write the save in place (a
failure is only logged, and the function returns `Ok` with the disk
unchanged); re-encode and re-decode the creature (`MonsterData::from_pk3`)
and insert it into the store; on insert failure, put the blob back
(`force = true`) and write again, errors propagating.  `w1`/`w2` inject
`write_in_place` outcomes, `iok` the insert transaction's io outcome and
`pb` the put-back's pokedex outcome. -/
def handle_deposit (st : SysState) (sbox spos dbox dpos : Nat)
    (w1 iok pb w2 : Bool) : RunOut :=
  match slotTake st.save sbox spos with
  | .error _ => ⟨st, [], false⟩
  | .ok (none, _) => ⟨st, [], true⟩
  | .ok (some p, mem1) =>
    match w1 with
    | false => ⟨st, [], true⟩
    | true =>
      match from_pk3 (to_pk3 p) with
      | none => ⟨⟨mem1, st.store⟩, [⟨mem1, st.store⟩], false⟩
      | some _ =>
        match (match iok with
               | true => insert_new_mon st.store (to_pk3 p) (dbox, dpos)
               | false => none) with
        | some (store2, _) =>
          ⟨⟨mem1, store2⟩, [⟨mem1, st.store⟩, ⟨mem1, store2⟩], true⟩
        | none =>
          match pb with
          | false => ⟨⟨mem1, st.store⟩, [⟨mem1, st.store⟩], false⟩
          | true =>
            match slotPut mem1 sbox spos (to_pk3 p) true with
            | .error _ => ⟨⟨mem1, st.store⟩, [⟨mem1, st.store⟩], false⟩
            | .ok (mem2, _) =>
              match w2 with
              | true =>
                ⟨⟨mem2, st.store⟩, [⟨mem1, st.store⟩, ⟨mem2, st.store⟩], true⟩
              | false => ⟨⟨mem1, st.store⟩, [⟨mem1, st.store⟩], false⟩

/-- `handle_withdraw`.  Control flow of the source: an occupied (or
undecodable) destination fails with nothing changed; the store withdrawal
commits first; then the blob is decoded, put into the save (the returned
bool is ignored) and the save written.  The source's compensating
re-insert is dead code — the `?` operators propagate out of the binding
block — so any later failure simply exits non-zero with the creature
already removed from the store.  `wd` injects the withdrawal transaction's
io outcome and `w` the `write_in_place` outcome. -/
def handle_withdraw (st : SysState) (mon_id dbox dpos : Nat)
    (wd w : Bool) : RunOut :=
  match slotGet st.save dbox dpos with
  | .error _ => ⟨st, [], false⟩
  | .ok (some _) => ⟨st, [], false⟩
  | .ok none =>
    match (match wd with
           | true => withdraw_mon st.store mon_id
           | false => none) with
    | none => ⟨st, [], false⟩
    | some (store1, row, _) =>
      match from_pk3 row.data with
      | none => ⟨⟨st.save, store1⟩, [⟨st.save, store1⟩], false⟩
      | some _ =>
        match slotPut st.save dbox dpos row.data false with
        | .error _ => ⟨⟨st.save, store1⟩, [⟨st.save, store1⟩], false⟩
        | .ok (mem2, _) =>
          match w with
          | true => ⟨⟨mem2, store1⟩, [⟨st.save, store1⟩, ⟨mem2, store1⟩], true⟩
          | false => ⟨⟨st.save, store1⟩, [⟨st.save, store1⟩], false⟩

/-- One controller invocation with its injected io outcomes. -/
inductive Op where
  | deposit (sbox spos dbox dpos : Nat) (w1 iok pb w2 : Bool)
  | withdraw (mon_id dbox dpos : Nat) (wd w : Bool)
deriving DecidableEq, Repr

/-- Well-formed calls: box numbers within the 14 physical boxes (where the
slot-granular view coincides with the byte-level engine) and positions in
range. -/
def OpWF : Op → Prop
  | .deposit sbox spos _ _ _ _ _ _ => 1 ≤ sbox ∧ sbox ≤ 14 ∧ 1 ≤ spos ∧ spos ≤ 30
  | .withdraw _ dbox dpos _ _ => 1 ≤ dbox ∧ dbox ≤ 14 ∧ 1 ≤ dpos ∧ dpos ≤ 30

instance (op : Op) : Decidable (OpWF op) := by
  cases op <;> (unfold OpWF; infer_instance)

/-- Execute one operation. -/
def stepOp (st : SysState) : Op → RunOut
  | .deposit sbox spos dbox dpos w1 iok pb w2 =>
    handle_deposit st sbox spos dbox dpos w1 iok pb w2
  | .withdraw mon_id dbox dpos wd w =>
    handle_withdraw st mon_id dbox dpos wd w

/-- All observable states along a sequence of operations. -/
def runObs (st : SysState) : List Op → List SysState
  | [] => []
  | op :: rest => (stepOp st op).obs ++ runObs (stepOp st op).final rest

/-- Final state after a sequence of operations. -/
def runFinal (st : SysState) : List Op → SysState
  | [] => st
  | op :: rest => runFinal (stepOp st op).final rest

/-- Does the blob at this slot window hold the identity `id`? -/
def identMatches (id : Nat × Nat) (b : Blob) : Bool :=
  !blobEmpty b && decide (pkIdent b = id)

/-- Number of slot windows holding identity `id`. -/
def savePlaces (mem : BoxMem) (id : Nat × Nat) : Nat :=
  mem.countP (identMatches id)

/-- Number of store rows holding identity `id`. -/
def storePlaces (st : RoamStore) (id : Nat × Nat) : Nat :=
  st.rows.countP (fun r => decide (pkIdent r.data = id))

/-- Total number of places (slot windows plus store rows) holding `id`. -/
def places (st : SysState) (id : Nat × Nat) : Nat :=
  savePlaces st.save id + storePlaces st.store id

/-- Every creature identity occupies at most one place overall. -/
def UniquelyPlaced (st : SysState) : Prop := ∀ id, places st id ≤ 1

/-- Number of containers among {save file, roam store} holding `id`. -/
def containersHolding (st : SysState) (id : Nat × Nat) : Nat :=
  (if st.save.any (identMatches id) then 1 else 0) +
    (if st.store.rows.any (fun r => decide (pkIdent r.data = id)) then 1 else 0)

/-- The at-most-one-home invariant: for every creature identity the number
of containers holding it is 0 or 1. -/
def AtMostOneHome (st : SysState) : Prop := ∀ id, containersHolding st id ≤ 1

theorem countP_filter_add {α : Type} (p q : α → Bool) (l : List α) :
    (l.filter q).countP p + (l.filter (fun a => !q a)).countP p = l.countP p := by
  induction l with
  | nil => rfl
  | cons a l ih =>
    by_cases hq : q a = true
    · rw [List.filter_cons_of_pos hq,
        List.filter_cons_of_neg (by simp [hq]), List.countP_cons, List.countP_cons]
      omega
    · rw [List.filter_cons_of_neg hq,
        List.filter_cons_of_pos (by simp [Bool.not_eq_true] at hq; simp [hq]),
        List.countP_cons, List.countP_cons]
      omega

theorem countP_filter_le {α : Type} (p q : α → Bool) (l : List α) :
    (l.filter q).countP p ≤ l.countP p := by
  have := countP_filter_add p q l
  omega

theorem countP_pos_of_mem {α : Type} {p : α → Bool} {l : List α} {a : α}
    (hm : a ∈ l) (hp : p a = true) : 1 ≤ l.countP p :=
  List.countP_pos_iff.mpr ⟨a, hm, hp⟩

theorem countP_filter_eq_zero {α : Type} {p q : α → Bool} {l : List α} {r0 : α}
    (hmem : r0 ∈ l) (hp : p r0 = true) (hq : q r0 = false)
    (hle : l.countP p ≤ 1) : (l.filter q).countP p = 0 := by
  have hadd := countP_filter_add p q l
  have hmem' : r0 ∈ l.filter (fun a => !q a) :=
    List.mem_filter.mpr ⟨hmem, by simp [hq]⟩
  have := countP_pos_of_mem hmem' hp
  omega

theorem blobEmpty_nil : blobEmpty [] = true := rfl

theorem identMatches_nil (id : Nat × Nat) : identMatches id [] = false := rfl

theorem identMatches_cleared (id : Nat × Nat) :
    identMatches id cleared_pk3 = false := by
  unfold identMatches
  rw [(by decide : blobEmpty cleared_pk3 = true)]
  rfl

theorem slotIdx_lt_of_matches (mem : BoxMem) (idx : Nat) (id : Nat × Nat)
    (h : identMatches id (mem.getD idx []) = true) : idx < mem.length := by
  by_contra hc
  rw [List.getD_eq_default _ _ (by omega)] at h
  rw [identMatches_nil] at h
  cases h

theorem getD_eq_elem (mem : BoxMem) (idx : Nat) (h : idx < mem.length) :
    mem.getD idx [] = mem[idx] := by
  rw [List.getD_eq_getElem?_getD, List.getElem?_eq_getElem h]
  rfl

theorem savePlaces_set (mem : BoxMem) (idx : Nat) (b : Blob) (id : Nat × Nat)
    (h : idx < mem.length) :
    savePlaces (mem.set idx b) id =
      savePlaces mem id - (if identMatches id mem[idx] then 1 else 0) +
        (if identMatches id b then 1 else 0) :=
  List.countP_set _ _ _ _ h

theorem storePlaces_append_single (rows : List MonRow) (entries : List BoxEntry)
    (nid next_id : Nat) (blob : Blob) (id : Nat × Nat) :
    storePlaces ⟨rows ++ [⟨nid, blob⟩], entries, next_id⟩ id =
      storePlaces ⟨rows, entries, next_id⟩ id +
        (if pkIdent blob = id then 1 else 0) := by
  unfold storePlaces
  rw [List.countP_append]
  simp [List.countP_cons]

theorem slotGet_some_spec (mem : BoxMem) (box pos : Nat) (p : Pokemon)
    (h : slotGet mem box pos = .ok (some p)) :
    slotRange box pos ∧ blobEmpty (getSlotBlob mem box pos) = false ∧
      from_pk3 (getSlotBlob mem box pos) = some p := by
  unfold slotGet at h
  by_cases hr : slotRange box pos
  · rw [if_pos hr] at h
    by_cases he : blobEmpty (getSlotBlob mem box pos) = true
    · rw [if_pos he] at h
      injection h with h
      exact Option.noConfusion h
    · rw [if_neg he] at h
      cases hf : from_pk3 (getSlotBlob mem box pos) with
      | none => rw [hf] at h; cases h
      | some q =>
        rw [hf] at h
        injection h with h
        injection h with h
        refine ⟨hr, Bool.not_eq_true _ ▸ he, ?_⟩
        rw [← h]
  · rw [if_neg hr] at h
    cases h

theorem slotGet_none_spec (mem : BoxMem) (box pos : Nat)
    (h : slotGet mem box pos = .ok none) :
    slotRange box pos ∧ blobEmpty (getSlotBlob mem box pos) = true := by
  unfold slotGet at h
  by_cases hr : slotRange box pos
  · rw [if_pos hr] at h
    by_cases he : blobEmpty (getSlotBlob mem box pos) = true
    · exact ⟨hr, he⟩
    · rw [if_neg he] at h
      cases hf : from_pk3 (getSlotBlob mem box pos) with
      | none => rw [hf] at h; cases h
      | some q =>
        rw [hf] at h
        injection h with h
        exact Option.noConfusion h
  · rw [if_neg hr] at h
    cases h

theorem slotPut_force_spec (mem : BoxMem) (box pos : Nat) (blob : Blob)
    (hr : slotRange box pos) (hlen : blob.length = 80) :
    slotPut mem box pos blob true = .ok (mem.set (slotIdx box pos) blob, true) := by
  unfold slotPut
  rw [if_neg (by omega : ¬ blob.length ≠ 80), if_pos hr,
    if_neg (by simp : ¬((!blobEmpty (getSlotBlob mem box pos) && !true) = true))]

theorem slotPut_ok_spec (mem : BoxMem) (box pos : Nat) (blob : Blob) (force : Bool)
    (mem' : BoxMem) (wr : Bool)
    (h : slotPut mem box pos blob force = .ok (mem', wr)) :
    (mem' = mem ∧ wr = false) ∨
      (mem' = mem.set (slotIdx box pos) blob ∧ wr = true) := by
  unfold slotPut at h
  by_cases hl : blob.length ≠ 80
  · rw [if_pos hl] at h; cases h
  · rw [if_neg hl] at h
    by_cases hr : slotRange box pos
    · rw [if_pos hr] at h
      by_cases hp : (!blobEmpty (getSlotBlob mem box pos) && !force) = true
      · rw [if_pos hp] at h
        injection h with h
        injection h with ha hb
        exact Or.inl ⟨ha.symm, hb.symm⟩
      · rw [if_neg hp] at h
        injection h with h
        injection h with ha hb
        exact Or.inr ⟨ha.symm, hb.symm⟩
    · rw [if_neg hr] at h
      cases h

theorem slotTake_some_spec (mem : BoxMem) (box pos : Nat) (p : Pokemon)
    (mem1 : BoxMem) (h : slotTake mem box pos = .ok (some p, mem1)) :
    slotRange box pos ∧ blobEmpty (getSlotBlob mem box pos) = false ∧
      from_pk3 (getSlotBlob mem box pos) = some p ∧
      mem1 = mem.set (slotIdx box pos) cleared_pk3 := by
  unfold slotTake at h
  cases hg : slotGet mem box pos with
  | error e => rw [hg] at h; cases h
  | ok pk =>
    rw [hg] at h
    obtain ⟨hr, hne, hf⟩ : slotRange box pos ∧
        blobEmpty (getSlotBlob mem box pos) = false ∧
        from_pk3 (getSlotBlob mem box pos) = some p := by
      cases pk with
      | none =>
        exfalso
        cases hp : slotPut mem box pos cleared_pk3 true with
        | error e => rw [hp] at h; cases h
        | ok pr =>
          obtain ⟨memx, wrx⟩ := pr
          rw [hp] at h
          injection h with h
          injection h with ha hb
          exact Option.noConfusion ha
      | some q =>
        have hq := slotGet_some_spec mem box pos q hg
        cases hp : slotPut mem box pos cleared_pk3 true with
        | error e => rw [hp] at h; cases h
        | ok pr =>
          obtain ⟨memx, wrx⟩ := pr
          rw [hp] at h
          injection h with h
          injection h with ha hb
          injection ha with hqp
          exact ⟨hq.1, hq.2.1, hqp ▸ hq.2.2⟩
    refine ⟨hr, hne, hf, ?_⟩
    rw [slotPut_force_spec mem box pos cleared_pk3 hr (by decide)] at h
    injection h with h
    injection h with ha hb
    exact hb.symm

theorem insert_new_mon_spec (st : RoamStore) (blob : Blob) (loc : Nat × Nat)
    (store2 : RoamStore) (nid : Nat)
    (h : insert_new_mon st blob loc = some (store2, nid)) :
    store2.rows = st.rows ++ [⟨st.next_id, blob⟩] := by
  unfold insert_new_mon at h
  by_cases hc : (st.entries.any (fun e =>
      decide (e.box_number = loc.1 ∧ e.box_position = loc.2)) ||
      st.entries.any (fun e => decide (e.monster_id = st.next_id))) = true
  · rw [if_pos hc] at h; cases h
  · rw [if_neg hc] at h
    injection h with h
    injection h with ha hb
    rw [← ha]

theorem withdraw_mon_spec (st : RoamStore) (mid : Nat) (store1 : RoamStore)
    (row : MonRow) (loc : Nat × Nat)
    (h : withdraw_mon st mid = some (store1, row, loc)) :
    store1.rows = st.rows.filter (fun r => !decide (r.mon_id = mid)) ∧
      row ∈ st.rows ∧ row.mon_id = mid := by
  unfold withdraw_mon at h
  cases hf : st.rows.find? (fun r => decide (r.mon_id = mid)) with
  | none => rw [hf] at h; cases h
  | some r =>
    rw [hf] at h
    cases he : st.entries.find? (fun e => decide (e.monster_id = mid)) with
    | none => rw [he] at h; cases h
    | some e =>
      rw [he] at h
      injection h with h
      injection h with h1 h2
      injection h2 with h2a h2b
      refine ⟨by rw [← h1], ?_, ?_⟩
      · rw [← h2a]; exact List.mem_of_find?_eq_some hf
      · rw [← h2a]
        have hps := List.find?_some hf
        exact of_decide_eq_true hps

theorem storePlaces_rows (s : RoamStore) (id : Nat × Nat) :
    storePlaces s id = s.rows.countP (fun r => decide (pkIdent r.data = id)) := rfl

theorem getSlotBlob_eq_elem (mem : BoxMem) (box pos : Nat)
    (h : slotIdx box pos < mem.length) :
    mem[slotIdx box pos] = getSlotBlob mem box pos :=
  (getD_eq_elem mem (slotIdx box pos) h).symm

theorem identMatches_true_iff (id : Nat × Nat) (b : Blob) :
    identMatches id b = true ↔ blobEmpty b = false ∧ pkIdent b = id := by
  unfold identMatches
  rw [Bool.and_eq_true, Bool.not_eq_true', decide_eq_true_iff]

/-- `to_pk3` after a successful `from_pk3` returns the input blob. -/
theorem to_from_pk3_id (b : List Nat) (p : Pokemon)
    (h : from_pk3 b = some p) : to_pk3 p = b := by
  unfold to_pk3
  rw [from_pk3_source_data b p h]
  exact encrypt_decrypt_invol b

theorem not_mem_nil_elim {α : Type} (P : α → Prop) :
    ∀ s ∈ ([] : List α), P s := fun s hs => absurd hs (List.not_mem_nil s)

theorem handle_deposit_preserves (st : SysState) (sbox spos dbox dpos : Nat)
    (w1 iok pb w2 : Bool) (h : UniquelyPlaced st) :
    UniquelyPlaced (handle_deposit st sbox spos dbox dpos w1 iok pb w2).final ∧
      ∀ s ∈ (handle_deposit st sbox spos dbox dpos w1 iok pb w2).obs,
        UniquelyPlaced s := by
  unfold handle_deposit
  cases ht : slotTake st.save sbox spos with
  | error e => exact ⟨h, not_mem_nil_elim _⟩
  | ok pr =>
    obtain ⟨pk, mem1⟩ := pr
    cases pk with
    | none => exact ⟨h, not_mem_nil_elim _⟩
    | some p =>
      obtain ⟨hr, hne, hf, hmem1⟩ := slotTake_some_spec st.save sbox spos p mem1 ht
      cases w1 with
      | false => exact ⟨h, not_mem_nil_elim _⟩
      | true =>
        have hmatch : identMatches (pkIdent (getSlotBlob st.save sbox spos))
            (getSlotBlob st.save sbox spos) = true :=
          (identMatches_true_iff _ _).mpr ⟨hne, rfl⟩
        have hidx : slotIdx sbox spos < st.save.length :=
          slotIdx_lt_of_matches st.save (slotIdx sbox spos) _ hmatch
        have helem : st.save[slotIdx sbox spos] = getSlotBlob st.save sbox spos :=
          getSlotBlob_eq_elem st.save sbox spos hidx
        have hsp : ∀ id, savePlaces mem1 id =
            savePlaces st.save id -
              (if identMatches id (getSlotBlob st.save sbox spos) then 1 else 0) := by
          intro id
          rw [hmem1, savePlaces_set st.save _ _ _ hidx, helem, identMatches_cleared]
          simp
        have hU1 : UniquelyPlaced ⟨mem1, st.store⟩ := by
          intro id
          show savePlaces mem1 id + storePlaces st.store id ≤ 1
          have hh : savePlaces st.save id + storePlaces st.store id ≤ 1 := h id
          rw [hsp id]
          by_cases hid : identMatches id (getSlotBlob st.save sbox spos) = true
          · rw [if_pos hid]; omega
          · rw [if_neg hid]; omega
        have hsave_pos : 1 ≤ savePlaces st.save (pkIdent (getSlotBlob st.save sbox spos)) :=
          countP_pos_of_mem (helem ▸ List.getElem_mem hidx) hmatch
        have hrt : to_pk3 p = getSlotBlob st.save sbox spos := to_from_pk3_id _ p hf
        dsimp only
        rw [hrt, hf]
        dsimp only
        have hU2restore : ∀ mem2 : BoxMem,
            mem2 = mem1.set (slotIdx sbox spos) (getSlotBlob st.save sbox spos) →
            UniquelyPlaced ⟨mem2, st.store⟩ := by
          intro mem2 hm2
          intro id
          show savePlaces mem2 id + storePlaces st.store id ≤ 1
          have hidx1 : slotIdx sbox spos < mem1.length := by
            rw [hmem1, List.length_set]; exact hidx
          have hgd : (List.set st.save (slotIdx sbox spos) cleared_pk3).getD
              (slotIdx sbox spos) [] = cleared_pk3 := by
            rw [getD_eq_elem _ _ (by rw [List.length_set]; exact hidx)]
            exact List.getElem_set_self _
          have helem1 : mem1[slotIdx sbox spos] = cleared_pk3 := by
            rw [← getD_eq_elem mem1 _ hidx1, hmem1]
            exact hgd
          have hh : savePlaces st.save id + storePlaces st.store id ≤ 1 := h id
          rw [hm2, savePlaces_set mem1 _ _ _ hidx1, helem1, identMatches_cleared,
            hsp id]
          by_cases hid : identMatches id (getSlotBlob st.save sbox spos) = true
          · rw [if_pos hid]
            have : pkIdent (getSlotBlob st.save sbox spos) = id :=
              ((identMatches_true_iff _ _).mp hid).2
            rw [← this] at hh ⊢
            simp only [if_neg (by simp : ¬(false = true))]
            omega
          · rw [if_neg hid]
            simp only [if_neg (by simp : ¬(false = true))]
            omega
        cases hins : (match iok with
            | true => insert_new_mon st.store (getSlotBlob st.save sbox spos)
                (dbox, dpos)
            | false => none) with
        | some pr2 =>
          obtain ⟨store2, nid⟩ := pr2
          have hins' : insert_new_mon st.store (getSlotBlob st.save sbox spos)
              (dbox, dpos) = some (store2, nid) := by
            cases iok with
            | false => cases hins
            | true => exact hins
          have hrows := insert_new_mon_spec st.store (getSlotBlob st.save sbox spos)
            (dbox, dpos) store2 nid hins'
          have hU2 : UniquelyPlaced ⟨mem1, store2⟩ := by
            intro id
            show savePlaces mem1 id + storePlaces store2 id ≤ 1
            have hh : savePlaces st.save id + storePlaces st.store id ≤ 1 := h id
            rw [hsp id, storePlaces_rows, hrows, List.countP_append]
            have hsingle : List.countP (fun r => decide (pkIdent r.data = id))
                [MonRow.mk st.store.next_id (getSlotBlob st.save sbox spos)] =
                if pkIdent (getSlotBlob st.save sbox spos) = id then 1 else 0 := by
              simp [List.countP_cons]
            rw [hsingle]
            by_cases hid : pkIdent (getSlotBlob st.save sbox spos) = id
            · rw [if_pos hid]
              have hidm : identMatches id (getSlotBlob st.save sbox spos) = true :=
                (identMatches_true_iff _ _).mpr ⟨hne, hid⟩
              rw [if_pos hidm]
              rw [hid] at hsave_pos
              rw [← storePlaces_rows]
              omega
            · rw [if_neg hid]
              have hidm : ¬ identMatches id (getSlotBlob st.save sbox spos) = true := by
                rw [identMatches_true_iff]
                intro hc
                exact hid hc.2
              rw [if_neg hidm, ← storePlaces_rows]
              omega
          dsimp only
          refine ⟨hU2, ?_⟩
          intro s hs
          rcases List.mem_cons.mp hs with rfl | hs'
          · exact hU1
          · rcases List.mem_singleton.mp hs' with rfl
            exact hU2
        | none =>
          dsimp only
          cases pb with
          | false =>
            exact ⟨hU1, fun s hs => by
              rcases List.mem_singleton.mp hs with rfl; exact hU1⟩
          | true =>
            dsimp only
            cases hput : slotPut mem1 sbox spos (getSlotBlob st.save sbox spos)
                true with
            | error e =>
              exact ⟨hU1, fun s hs => by
                rcases List.mem_singleton.mp hs with rfl; exact hU1⟩
            | ok pr3 =>
              obtain ⟨mem2, wr⟩ := pr3
              have hU3 : UniquelyPlaced ⟨mem2, st.store⟩ := by
                rcases slotPut_ok_spec mem1 sbox spos
                    (getSlotBlob st.save sbox spos) true mem2 wr hput with
                  ⟨hm2, -⟩ | ⟨hm2, -⟩
                · rw [hm2]; exact hU1
                · exact hU2restore mem2 hm2
              dsimp only
              cases w2 with
              | false =>
                exact ⟨hU1, fun s hs => by
                  rcases List.mem_singleton.mp hs with rfl; exact hU1⟩
              | true =>
                refine ⟨hU3, ?_⟩
                intro s hs
                rcases List.mem_cons.mp hs with rfl | hs'
                · exact hU1
                · rcases List.mem_singleton.mp hs' with rfl
                  exact hU3

theorem handle_withdraw_preserves (st : SysState) (mon_id dbox dpos : Nat)
    (wd w : Bool) (h : UniquelyPlaced st) :
    UniquelyPlaced (handle_withdraw st mon_id dbox dpos wd w).final ∧
      ∀ s ∈ (handle_withdraw st mon_id dbox dpos wd w).obs, UniquelyPlaced s := by
  unfold handle_withdraw
  cases hg : slotGet st.save dbox dpos with
  | error e => exact ⟨h, not_mem_nil_elim _⟩
  | ok pk =>
    cases pk with
    | some q => exact ⟨h, not_mem_nil_elim _⟩
    | none =>
      cases hwd : (match wd with
          | true => withdraw_mon st.store mon_id
          | false => none) with
      | none => exact ⟨h, not_mem_nil_elim _⟩
      | some tr =>
        obtain ⟨store1, row, loc⟩ := tr
        have hwd' : withdraw_mon st.store mon_id = some (store1, row, loc) := by
          cases wd with
          | false => cases hwd
          | true => exact hwd
        obtain ⟨hrows, hmem, hmid⟩ := withdraw_mon_spec st.store mon_id store1 row
          loc hwd'
        have hsp1le : ∀ id, storePlaces store1 id ≤ storePlaces st.store id := by
          intro id
          rw [storePlaces_rows, storePlaces_rows, hrows]
          exact countP_filter_le _ _ _
        have hU1 : UniquelyPlaced ⟨st.save, store1⟩ := by
          intro id
          show savePlaces st.save id + storePlaces store1 id ≤ 1
          have hh : savePlaces st.save id + storePlaces st.store id ≤ 1 := h id
          have := hsp1le id
          omega
        have hstore_pos : 1 ≤ storePlaces st.store (pkIdent row.data) :=
          countP_pos_of_mem hmem (by simp)
        have hzero : storePlaces store1 (pkIdent row.data) = 0 := by
          rw [storePlaces_rows, hrows]
          refine countP_filter_eq_zero hmem (by simp) (by simp [hmid]) ?_
          have hh : savePlaces st.save (pkIdent row.data) +
              storePlaces st.store (pkIdent row.data) ≤ 1 := h _
          rw [storePlaces_rows] at hh
          omega
        have hsaveZero : savePlaces st.save (pkIdent row.data) = 0 := by
          have hh : savePlaces st.save (pkIdent row.data) +
              storePlaces st.store (pkIdent row.data) ≤ 1 := h _
          omega
        dsimp only
        cases hfc : from_pk3 row.data with
        | none =>
          exact ⟨hU1, fun s hs => by
            rcases List.mem_singleton.mp hs with rfl; exact hU1⟩
        | some q2 =>
          dsimp only
          cases hput : slotPut st.save dbox dpos row.data false with
          | error e =>
            exact ⟨hU1, fun s hs => by
              rcases List.mem_singleton.mp hs with rfl; exact hU1⟩
          | ok pr2 =>
            obtain ⟨mem2, wr⟩ := pr2
            have hU2 : UniquelyPlaced ⟨mem2, store1⟩ := by
              rcases slotPut_ok_spec st.save dbox dpos row.data false mem2 wr hput with
                ⟨hm2, -⟩ | ⟨hm2, -⟩
              · rw [hm2]; exact hU1
              · intro id
                show savePlaces mem2 id + storePlaces store1 id ≤ 1
                by_cases hidx2 : slotIdx dbox dpos < st.save.length
                · have hdest : st.save[slotIdx dbox dpos] =
                      getSlotBlob st.save dbox dpos :=
                    getSlotBlob_eq_elem st.save dbox dpos hidx2
                  have hdest_empty : blobEmpty (getSlotBlob st.save dbox dpos) = true :=
                    (slotGet_none_spec st.save dbox dpos hg).2
                  have hdm : identMatches id st.save[slotIdx dbox dpos] = false := by
                    rw [hdest]
                    unfold identMatches
                    rw [hdest_empty]
                    rfl
                  rw [hm2, savePlaces_set st.save _ _ _ hidx2, hdm]
                  simp only [if_neg (by simp : ¬(false = true))]
                  by_cases hid : identMatches id row.data = true
                  · rw [if_pos hid]
                    have : pkIdent row.data = id :=
                      ((identMatches_true_iff _ _).mp hid).2
                    rw [← this]
                    rw [hzero, hsaveZero]
                  · rw [if_neg hid]
                    have hh : savePlaces st.save id + storePlaces st.store id ≤ 1 :=
                      h id
                    have := hsp1le id
                    omega
                · rw [hm2, List.set_eq_of_length_le (by omega)]
                  exact hU1 id
            dsimp only
            cases w with
            | false =>
              exact ⟨hU1, fun s hs => by
                rcases List.mem_singleton.mp hs with rfl; exact hU1⟩
            | true =>
              refine ⟨hU2, ?_⟩
              intro s hs
              rcases List.mem_cons.mp hs with rfl | hs'
              · exact hU1
              · rcases List.mem_singleton.mp hs' with rfl
                exact hU2

theorem step_preserves (st : SysState) (op : Op) (h : UniquelyPlaced st) :
    UniquelyPlaced (stepOp st op).final ∧
      ∀ s ∈ (stepOp st op).obs, UniquelyPlaced s := by
  cases op with
  | deposit sbox spos dbox dpos w1 iok pb w2 =>
    exact handle_deposit_preserves st sbox spos dbox dpos w1 iok pb w2 h
  | withdraw mon_id dbox dpos wd w =>
    exact handle_withdraw_preserves st mon_id dbox dpos wd w h

theorem run_preserves (ops : List Op) : ∀ st : SysState, UniquelyPlaced st →
    UniquelyPlaced (runFinal st ops) ∧ ∀ s ∈ runObs st ops, UniquelyPlaced s := by
  induction ops with
  | nil =>
    intro st h
    exact ⟨h, not_mem_nil_elim _⟩
  | cons op rest ih =>
    intro st h
    have hstep := step_preserves st op h
    have hrun := ih (stepOp st op).final hstep.1
    refine ⟨hrun.1, ?_⟩
    intro s hs
    unfold runObs at hs
    rcases List.mem_append.mp hs with hs1 | hs2
    · exact hstep.2 s hs1
    · exact hrun.2 s hs2

theorem atMostOne_of_uniquelyPlaced (st : SysState) (h : UniquelyPlaced st) :
    AtMostOneHome st := by
  intro id
  have hp : savePlaces st.save id + storePlaces st.store id ≤ 1 := h id
  unfold containersHolding
  by_cases h1 : st.save.any (identMatches id) = true
  · have hs1 : 1 ≤ savePlaces st.save id := by
      obtain ⟨a, ha, hpa⟩ := List.any_eq_true.mp h1
      exact countP_pos_of_mem ha hpa
    by_cases h2 : (st.store.rows.any fun r => decide (pkIdent r.data = id)) = true
    · obtain ⟨a, ha, hpa⟩ := List.any_eq_true.mp h2
      have hs2 : 1 ≤ storePlaces st.store id := countP_pos_of_mem ha hpa
      omega
    · rw [if_pos h1, if_neg h2]
  · rw [if_neg h1]
    by_cases h2 : (st.store.rows.any fun r => decide (pkIdent r.data = id)) = true
    · rw [if_pos h2]
    · rw [if_neg h2]
      omega

/-! ### C1 — at-most-one home -/

/-- C1 (amended).  For every sequence of well-formed deposit/withdraw
operations — with any pattern of injected io failures — starting from a
state in which every creature identity occupies *at most one place*
overall (at most one box slot in the save and at most one store row,
combined), the at-most-one-home invariant holds at the initial state, at
every observable state (after each save write and after each committed
store transaction), and at the final state. -/
theorem c1_at_most_one_home (st0 : SysState) (ops : List Op)
    (hwf : ∀ op ∈ ops, OpWF op) (h : UniquelyPlaced st0) :
    AtMostOneHome st0 ∧ (∀ s ∈ runObs st0 ops, AtMostOneHome s) ∧
      AtMostOneHome (runFinal st0 ops) := by
  have hrun := run_preserves ops st0 h
  exact ⟨atMostOne_of_uniquelyPlaced st0 h,
    fun s hs => atMostOne_of_uniquelyPlaced s (hrun.2 s hs),
    atMostOne_of_uniquelyPlaced _ hrun.1⟩

/-- An 80-byte blob that decodes (language byte 2 at +0x12) and carries
species 1 in its Growth substructure; its identity is (P, OT) = (0, 0). -/
def blobS : List Nat :=
  List.replicate 18 0 ++ [2] ++ List.replicate 13 0 ++ [1] ++ List.replicate 47 0

/-- A save holding `blobS` in box 1 slot 1 only, with an empty store. -/
def stOne : SysState := ⟨[blobS], ⟨[], [], 1⟩⟩

/-- A save holding `blobS` in box 1 slots 1 *and* 2 — two places, but
still only one container — with an empty store. -/
def stDup : SysState := ⟨[blobS, blobS], ⟨[], [], 1⟩⟩

/-- The deposit of box 1 slot 1 to store location (2, 5), all io
succeeding. -/
def opDep : Op := .deposit 1 1 2 5 true true true true

/-- Witness for C1 at `stOne`. -/
theorem c1_at_most_one_home_witness :
    (∀ op ∈ [opDep], OpWF op) ∧
      (AtMostOneHome stOne ∧ (∀ s ∈ runObs stOne [opDep], AtMostOneHome s) ∧
        AtMostOneHome (runFinal stOne [opDep])) := by
  have hu : UniquelyPlaced stOne := by
    intro id
    show savePlaces [blobS] id + storePlaces ⟨[], [], 1⟩ id ≤ 1
    have h1 : savePlaces [blobS] id ≤ 1 := List.countP_le_length _
    have h2 : storePlaces ⟨[], [], 1⟩ id = 0 := rfl
    omega
  exact ⟨by decide, c1_at_most_one_home stOne [opDep] (by decide) hu⟩

/-- Counterexample for C1 as stated: `stDup` satisfies the claim's
precondition — each identity is held by at most one *container* — and the
single deposit is well-formed, yet after it the identity (0, 0) is held by
both the save file and the roam store at an observable state. -/
theorem c1_counterexample_duplicate_identity :
    AtMostOneHome stDup ∧ (∀ op ∈ [opDep], OpWF op) ∧
      ¬ AtMostOneHome (runFinal stDup [opDep]) := by
  refine ⟨?_, by decide, ?_⟩
  · intro id
    unfold containersHolding
    have h2 : (stDup.store.rows.any fun r => decide (pkIdent r.data = id)) = false :=
      rfl
    rw [h2]
    by_cases h1 : stDup.save.any (identMatches id) = true
    · rw [if_pos h1]
      simp
    · rw [if_neg h1]
      simp
  · intro hc
    have := hc (pkIdent blobS)
    revert this
    decide

/-! ### C8 — deposit from an empty source slot -/

/-- C8 (amended).  When the source box slot is empty (`take_slot` returns
none), `handle_deposit` logs a warning and returns success: the process
exit code is 0, no observable write occurs, and the on-disk state is
unchanged.  (The claimed `SourceEmpty` failure with a non-zero exit does
not exist in the source.) -/
theorem c8_empty_source_returns_ok (st : SysState) (sbox spos dbox dpos : Nat)
    (w1 iok pb w2 : Bool) (hr : slotRange sbox spos)
    (he : blobEmpty (getSlotBlob st.save sbox spos) = true) :
    handle_deposit st sbox spos dbox dpos w1 iok pb w2 = ⟨st, [], true⟩ := by
  unfold handle_deposit
  have hget : slotGet st.save sbox spos = .ok none := by
    unfold slotGet
    rw [if_pos hr, if_pos he]
  have htake : slotTake st.save sbox spos =
      .ok (none, st.save.set (slotIdx sbox spos) cleared_pk3) := by
    unfold slotTake
    rw [hget, slotPut_force_spec st.save sbox spos cleared_pk3 hr (by decide)]
  rw [htake]

/-- A system state with an entirely empty save and an empty store. -/
def stEmpty : SysState := ⟨[], ⟨[], [], 1⟩⟩

/-- Witness for C8 at `stEmpty`. -/
theorem c8_empty_source_returns_ok_witness :
    slotRange 1 1 ∧ blobEmpty (getSlotBlob stEmpty.save 1 1) = true ∧
      handle_deposit stEmpty 1 1 2 5 true true true true = ⟨stEmpty, [], true⟩ :=
  ⟨by decide, by decide,
    c8_empty_source_returns_ok stEmpty 1 1 2 5 true true true true (by decide)
      (by decide)⟩

/-- Counterexample for C8 as stated: depositing from the empty slot
(1, 1) does not fail — the handler returns `Ok` and the process exits 0,
instead of failing with `SourceEmpty` and a non-zero exit. -/
theorem c8_counterexample_exit_zero :
    blobEmpty (getSlotBlob stEmpty.save 1 1) = true ∧
      (handle_deposit stEmpty 1 1 2 5 true true true true).exit_ok = true := by
  exact ⟨by decide, by decide⟩

/-! ### C5 — occupied-slot protection in `put_pokemon_in_box` -/

/-- Image that is zero except byte 0x14000 = 5: the straddling box slot
(2, 20) — logical section 5 offset 3924, second piece at the head of
logical section 6 (physical 0x14000 under `metaZ`) — is occupied through
its second piece only. -/
def imgOcc : Image := fun i => if i = 0x14000 then 5 else 0

/-- Image that is zero except byte 0x13004 = 5: the contiguous box slot
(1, 1) is occupied. -/
def imgOcc2 : Image := fun i => if i = 0x13004 then 5 else 0

/-- C5 evaluation at the failing inputs (code bug).  First conjunct
block: slot (2, 20) straddles and is occupied (its second piece, at the
head of logical section 6, is non-zero), yet `put_pokemon_in_box` with
`force = false` returns `Ok(true)` and overwrites the occupied byte —
because its occupancy check reads the second piece from the *first*
section's start instead of the next section.  Second block: on the
occupied contiguous slot (1, 1) the function returns `Ok(false)` as
claimed but has already set the pokedex owned bit, so the buffer is not
left unchanged. -/
theorem c5_code_bug_evaluation :
    saveFileNew imgOcc 131072 = some metaZ ∧
    compute_section_id_and_offset_for_box_slot 2 20 = some (5, 3924) ∧
    anyNonzero imgOcc (get_offset_for_section metaZ 6) (80 - (3968 - 3924)) = true ∧
    (put_pokemon_in_box metaZ imgOcc 2 20 blobS false).toOption.map Prod.snd =
      some true ∧
    (put_pokemon_in_box metaZ imgOcc 2 20 blobS false).toOption.map
      (fun r => r.1 0x14000) = some 0 ∧
    imgOcc 0x14000 = 5 ∧
    anyNonzero imgOcc2 (get_offset_for_section metaZ 5 + 4) 80 = true ∧
    (put_pokemon_in_box metaZ imgOcc2 1 1 blobS false).toOption.map
      (fun r => (r.2, r.1 (get_offset_for_section metaZ 0 + 0x28))) =
      some (false, 1) ∧
    imgOcc2 (get_offset_for_section metaZ 0 + 0x28) = 0 := by
  refine ⟨by decide, by decide, by decide, by decide, by decide, by decide,
    by decide, by decide, by decide⟩

end PkRoam
